import Mathlib

/-!
# Verification of the weather data-shaping pipeline (`src/weather.py`)

This file gives a shallow embedding of the core of `weather.py`:

* `flatten_hourly_data` (lines 29-50): builds a table from `data['hourly']`,
  broadcasts the top-level scalar metadata and the unit strings as columns;
* `transform_data` (lines 53-82): parses the `time` column, splits it into a
  date column (`time`) and a time-of-day column (`hour`), renames
  `temperature_2m -> temperature` and `temperature_2m_unit -> temperature_unit`,
  and projects to the fixed 12-column list;
* `plot_temperature` (lines 85-106): the data-touching part of the renderer —
  recombining `time` and `hour` as strings, re-parsing them, slicing the first
  `hours` rows, and reading `temperature_unit` at row 0.

JSON documents are modelled by `Forecast`; pandas DataFrames by `DataFrame`
(an ordered list of named columns); cell values by `Value`.  Machine floats
are modelled by `Rat`: the pipeline never performs arithmetic on numeric
cells (values pass through unmodified), so any type with decidable equality
is a faithful carrier.  Fallible operations return `Except Err _`, with one
`Err` constructor per Python exception class that can escape the pipeline.
-/

namespace Weather

/-! ## Decimal digits: printing and reading

`pd.to_datetime` parsing and Python's `str(date)` / `str(time)` formatting
are modelled by explicit decimal digit functions so that the date/hour
round-trip law can be proved.  All recursions are structural so that the
kernel can evaluate them on concrete inputs.
-/

/-- The character for a decimal digit `d < 10`. -/
def digitChar (d : Nat) : Char := Char.ofNat (48 + d)

/-- Numeric value of a decimal digit character, `none` on a non-digit. -/
def digitVal (c : Char) : Option Nat :=
  if 48 ≤ c.toNat ∧ c.toNat ≤ 57 then some (c.toNat - 48) else none

/-- Little-endian decimal digits of `n`, with explicit fuel (structural
recursion, kernel-reducible).  `natDigitsAux f n` is correct for `n ≤ f`. -/
def natDigitsAux : Nat → Nat → List Nat
  | 0, _ => []
  | _ + 1, 0 => []
  | f + 1, n + 1 => ((n + 1) % 10) :: natDigitsAux f ((n + 1) / 10)

/-- Big-endian decimal digits of `n` (empty for `n = 0`). -/
def bigDigits (n : Nat) : List Nat := (natDigitsAux n n).reverse

/-- Big-endian digits of `n`, left-padded with zeros to width `w`. -/
def padDigits (w n : Nat) : List Nat :=
  List.replicate (w - (bigDigits n).length) 0 ++ bigDigits n

/-- Zero-padded decimal rendering of `n` to width `w`, as characters. -/
def padChars (w n : Nat) : List Char := (padDigits w n).map digitChar

/-- Value of a big-endian digit list, with accumulator. -/
def valAcc : List Nat → Nat → Nat
  | [], a => a
  | d :: l, a => valAcc l (10 * a + d)

/-- Read a decimal number from characters, with accumulator; `none` on any
non-digit character. -/
def readNatAux : List Char → Nat → Option Nat
  | [], a => some a
  | c :: l, a =>
    match digitVal c with
    | some d => readNatAux l (10 * a + d)
    | none => none

/-- Read a nonempty all-digit character list as a number. -/
def readChars : List Char → Option Nat
  | [] => none
  | c :: l => readNatAux (c :: l) 0

/-- Split a character list on a separator character (like `str.split`). -/
def splitListOn (sep : Char) : List Char → List (List Char)
  | [] => [[]]
  | c :: l =>
    let r := splitListOn sep l
    if c = sep then [] :: r
    else
      match r with
      | [] => [[c]]
      | h :: t => (c :: h) :: t

/-- Split at the first ISO-8601 date/time separator (`'T'` or `' '`),
returning the date part and the time part; `none` if no separator. -/
def splitSep : List Char → Option (List Char × List Char)
  | [] => none
  | c :: l =>
    if c = 'T' ∨ c = ' ' then some ([], l)
    else (splitSep l).map (fun p => (c :: p.1, p.2))

/-! ## Dates and times of day -/

/-- A calendar date (the `.dt.date` component of a parsed timestamp). -/
structure Date where
  year : Nat
  month : Nat
  day : Nat
  deriving DecidableEq, Repr

/-- A wall-clock time of day (the `.dt.time` component). -/
structure Tod where
  hour : Nat
  minute : Nat
  second : Nat
  deriving DecidableEq, Repr

/-- `str()` of a Python `date`: `YYYY-MM-DD`, zero-padded. -/
def dateChars (d : Date) : List Char :=
  padChars 4 d.year ++ '-' :: (padChars 2 d.month ++ '-' :: padChars 2 d.day)

/-- `str()` of a Python `time`: `HH:MM:SS`, zero-padded. -/
def todChars (t : Tod) : List Char :=
  padChars 2 t.hour ++ ':' :: (padChars 2 t.minute ++ ':' :: padChars 2 t.second)

/-- Parse the date part `YYYY-MM-DD` of an ISO-8601 timestamp, validating
the ranges that `pd.to_datetime` checks. -/
def parseDate (l : List Char) : Option Date :=
  match splitListOn '-' l with
  | [ys, ms, ds] =>
    match readChars ys, readChars ms, readChars ds with
    | some y, some mo, some dd =>
      if 1 ≤ mo ∧ mo ≤ 12 ∧ 1 ≤ dd ∧ dd ≤ 31 then some ⟨y, mo, dd⟩ else none
    | _, _, _ => none
  | _ => none

/-- Parse the time part `HH:MM` or `HH:MM:SS` of an ISO-8601 timestamp
(the API omits seconds; `str(time)` includes them). -/
def parseTod (l : List Char) : Option Tod :=
  match splitListOn ':' l with
  | [hs, ms] =>
    match readChars hs, readChars ms with
    | some h, some mi =>
      if h ≤ 23 ∧ mi ≤ 59 then some ⟨h, mi, 0⟩ else none
    | _, _ => none
  | [hs, ms, ss] =>
    match readChars hs, readChars ms, readChars ss with
    | some h, some mi, some s =>
      if h ≤ 23 ∧ mi ≤ 59 ∧ s ≤ 59 then some ⟨h, mi, s⟩ else none
    | _, _, _ => none
  | _ => none

/-- Model of `pd.to_datetime` on one ISO-8601 string (`YYYY-MM-DDTHH:MM`,
also accepting a space separator and an optional seconds field, the format
produced when the date and hour are re-stringified and recombined). -/
def parseDT (s : String) : Option (Date × Tod) :=
  match splitSep s.data with
  | some (dp, tp) =>
    match parseDate dp, parseTod tp with
    | some d, some t => some (d, t)
    | _, _ => none
  | none => none

/-! ## Cell values and errors -/

/-- A cell value of the table: JSON strings and numbers, plus the parsed
datetime / date / time-of-day objects produced mid-pipeline. -/
inductive Value where
  | str : String → Value
  | num : Rat → Value
  | date : Date → Value
  | tod : Tod → Value
  | dt : Date → Tod → Value
  deriving DecidableEq, Repr

/-- Python's `str()` on a cell value (`.astype(str)` in `plot_temperature`). -/
def valueToStr : Value → String
  | .str s => s
  | .num q => toString q
  | .date d => ⟨dateChars d⟩
  | .tod t => ⟨todChars t⟩
  | .dt d t => (⟨dateChars d⟩ : String) ++ " " ++ (⟨todChars t⟩ : String)

/-- The Python exceptions that can escape the pipeline.  `emptyDataError`
is named by the spec only (§8); no operation of the source raises it. -/
inductive Err where
  | keyError : String → Err
  | valueError : Err
  | parseError : Err
  | attrError : Err
  | indexError : Err
  | emptyDataError : Err
  deriving DecidableEq, Repr

/-! ## Documents and tables -/

/-- A decoded forecast document (§3 of the spec / the JSON shape of §6).
The seven scalar attributes are the top-level keys other than `hourly` and
`hourly_units`; `hourly` maps field names to per-hour value sequences and
`hourly_units` maps field names to unit strings.  Both mappings are ordered
association lists, like Python dicts. -/
structure Forecast where
  latitude : Value
  longitude : Value
  generationtime_ms : Value
  utc_offset_seconds : Value
  timezone : Value
  timezone_abbreviation : Value
  elevation : Value
  hourly : List (String × List Value)
  hourly_units : List (String × Value)
  deriving DecidableEq, Repr

/-- The items of the metadata comprehension
`{k: v for k, v in data.items() if k not in ['hourly', 'hourly_units']}`
(line 42), in the key order of the Open-Meteo response document. -/
def topItems (d : Forecast) : List (String × Value) :=
  [("latitude", d.latitude), ("longitude", d.longitude),
   ("generationtime_ms", d.generationtime_ms),
   ("utc_offset_seconds", d.utc_offset_seconds),
   ("timezone", d.timezone), ("timezone_abbreviation", d.timezone_abbreviation),
   ("elevation", d.elevation)]

/-- A pandas DataFrame: an ordered list of named columns (each a list of
cell values, one per row). -/
structure DataFrame where
  cols : List (String × List Value)
  deriving DecidableEq, Repr

/-- First-match association-list lookup (dict / column-label lookup). -/
def alookup {α : Type} : List (String × α) → String → Option α
  | [], _ => none
  | p :: l, n => if p.1 = n then some p.2 else alookup l n

/-- The number of rows (length of the first column; 0 if no columns). -/
def DataFrame.nrows (df : DataFrame) : Nat :=
  match df.cols with
  | [] => 0
  | p :: _ => p.2.length

/-- `df[n]`: column access; `KeyError` when the label is absent. -/
def DataFrame.getCol (df : DataFrame) (n : String) : Except Err (List Value) :=
  match alookup df.cols n with
  | some c => .ok c
  | none => .error (.keyError n)

/-- `df[n] = c` with a column value: overwrite in place if the label exists
(keeping its position), otherwise append a new column at the end. -/
def DataFrame.setCol (df : DataFrame) (n : String) (c : List Value) : DataFrame :=
  if (alookup df.cols n).isSome then
    ⟨df.cols.map (fun p => if p.1 = n then (n, c) else p)⟩
  else ⟨df.cols ++ [(n, c)]⟩

/-- `df[n] = v` with a scalar: broadcast `v` to every row. -/
def DataFrame.setColB (df : DataFrame) (n : String) (v : Value) : DataFrame :=
  df.setCol n (List.replicate df.nrows v)

/-- The column labels, in order. -/
def colNames (df : DataFrame) : List String := df.cols.map Prod.fst

/-- A loop `for key, value in l: df[g key] = value` of broadcast
assignments (lines 43-44 with `g = id`, lines 47-48 with
`g = (· ++ "_unit")`). -/
def bfold (g : String → String) (l : List (String × Value)) (df : DataFrame) :
    DataFrame :=
  l.foldl (fun acc p => acc.setColB (g p.1) p.2) df

/-- `pd.DataFrame(dict_of_lists)` (line 39): one column per key in order;
`ValueError` if the sequences do not all have the same length. -/
def mkDataFrame (m : List (String × List Value)) : Except Err DataFrame :=
  match m with
  | [] => .ok ⟨[]⟩
  | p :: rest =>
    if rest.all (fun q => q.2.length == p.2.length) then .ok ⟨p :: rest⟩
    else .error .valueError

/-- `mapM` over `Except`, written with structural recursion and explicit
matches (elementwise column operations; stops at the first error). -/
def mapExcept {α β : Type} (f : α → Except Err β) : List α → Except Err (List β)
  | [] => .ok []
  | a :: l =>
    match f a with
    | .error e => .error e
    | .ok b =>
      match mapExcept f l with
      | .error e => .error e
      | .ok bs => .ok (b :: bs)

/-- The rename mapping of lines 71-74. -/
def renameKey (n : String) : String :=
  if n = "temperature_2m" then "temperature"
  else if n = "temperature_2m_unit" then "temperature_unit"
  else n

/-- `df.rename(columns={...})`: relabels columns in place, ignoring labels
that do not occur. -/
def renameCols (df : DataFrame) : DataFrame :=
  ⟨df.cols.map (fun p => (renameKey p.1, p.2))⟩

/-- `df[names]` with a list of labels (line 82): select and reorder the
named columns; `KeyError` if any is absent. -/
def project (df : DataFrame) : List String → Except Err DataFrame
  | [] => .ok ⟨[]⟩
  | n :: ns =>
    match df.getCol n with
    | .error e => .error e
    | .ok c =>
      match project df ns with
      | .error e => .error e
      | .ok t => .ok ⟨(n, c) :: t.cols⟩

/-! ## The source functions -/

/-- Column name created by the units loop of lines 47-48. -/
def unitName (k : String) : String := k ++ "_unit"

/-- `flatten_hourly_data` (lines 29-50): build the hourly table, then
broadcast the top-level metadata, then the unit strings. -/
def flatten_hourly_data (d : Forecast) : Except Err DataFrame :=
  match mkDataFrame d.hourly with
  | .error e => .error e
  | .ok hourly_df => .ok (bfold unitName d.hourly_units (bfold id (topItems d) hourly_df))

/-- `pd.to_datetime` on one cell (line 66): parse an ISO-8601 string into
a datetime value; any other cell shape is a parse failure in this model. -/
def toDatetimeCell (v : Value) : Except Err Value :=
  match v with
  | .str s =>
    match parseDT s with
    | some p => .ok (.dt p.1 p.2)
    | none => .error .parseError
  | _ => .error .parseError

/-- `.dt.time` on one cell (line 67). -/
def dtTimeCell (v : Value) : Except Err Value :=
  match v with
  | .dt _ t => .ok (.tod t)
  | _ => .error .attrError

/-- `.dt.date` on one cell (line 68). -/
def dtDateCell (v : Value) : Except Err Value :=
  match v with
  | .dt d _ => .ok (.date d)
  | _ => .error .attrError

/-- The fixed projection list of lines 77-81. -/
def ordered_columns : List String :=
  ["time", "hour", "temperature", "latitude", "longitude", "generationtime_ms",
   "utc_offset_seconds", "timezone", "timezone_abbreviation", "elevation",
   "time_unit", "temperature_unit"]

/-- `transform_data` (lines 53-82). -/
def transform_data (d : Forecast) : Except Err DataFrame :=
  match flatten_hourly_data d with
  | .error e => .error e
  | .ok df0 =>
    match df0.getCol "time" with
    | .error e => .error e
    | .ok tc0 =>
      match mapExcept toDatetimeCell tc0 with
      | .error e => .error e
      | .ok parsed =>
        let df1 := df0.setCol "time" parsed
        match df1.getCol "time" with
        | .error e => .error e
        | .ok tc1 =>
          match mapExcept dtTimeCell tc1 with
          | .error e => .error e
          | .ok hrs =>
            let df2 := df1.setCol "hour" hrs
            match df2.getCol "time" with
            | .error e => .error e
            | .ok tc2 =>
              match mapExcept dtDateCell tc2 with
              | .error e => .error e
              | .ok dts =>
                let df3 := df2.setCol "time" dts
                project (renameCols df3) ordered_columns

/-- The data handed to matplotlib by `plot_temperature`: the plotted x and
y series and the y-axis unit read from row 0. -/
structure PlotData where
  xs : List Value
  ys : List Value
  unitLabel : Value
  deriving DecidableEq, Repr

/-- The data-touching operations of `plot_temperature` (lines 85-106):
recombine `str(time) + ' ' + str(hour)` and re-parse (line 94), slice the
first `hours` rows for the plot (line 97), and read `temperature_unit` at
row 0 for the y-axis label (line 100; `IndexError` on a zero-row table).
Figure and axes drawing are external and not modelled. -/
def plot_temperature (df : DataFrame) (hours : Nat) : Except Err PlotData :=
  match df.getCol "time" with
  | .error e => .error e
  | .ok dcol =>
    match df.getCol "hour" with
    | .error e => .error e
    | .ok hcol =>
      match mapExcept (fun s =>
          match parseDT s with
          | some p => .ok (Value.dt p.1 p.2)
          | none => .error Err.parseError)
        (List.zipWith (fun a b => valueToStr a ++ " " ++ valueToStr b) dcol hcol) with
      | .error e => .error e
      | .ok dtv =>
        let df1 := df.setCol "datetime" dtv
        match df1.getCol "datetime" with
        | .error e => .error e
        | .ok xs =>
          match df1.getCol "temperature" with
          | .error e => .error e
          | .ok ys =>
            match df1.getCol "temperature_unit" with
            | .error e => .error e
            | .ok ucol =>
              match ucol with
              | [] => .error .indexError
              | u :: _ => .ok ⟨xs.take hours, ys.take hours, u⟩

/-! ## Lemmas: decimal digits and the print/parse round trip -/

theorem digitVal_digitChar (d : Nat) (h : d < 10) :
    digitVal (digitChar d) = some d := by
  interval_cases d <;> decide

theorem digitChar_ne (d : Nat) (h : d < 10) :
    digitChar d ≠ 'T' ∧ digitChar d ≠ ' ' ∧ digitChar d ≠ '-' ∧ digitChar d ≠ ':' := by
  interval_cases d <;> decide

theorem natDigitsAux_lt (f : Nat) : ∀ n, n ≤ f → ∀ d ∈ natDigitsAux f n, d < 10 := by
  induction f with
  | zero => intro n hn d hd; simp [natDigitsAux] at hd
  | succ f ih =>
    intro n hn d hd
    match n with
    | 0 => simp [natDigitsAux] at hd
    | m + 1 =>
      simp only [natDigitsAux, List.mem_cons] at hd
      rcases hd with hd | hd
      · subst hd; exact Nat.mod_lt _ (by omega)
      · exact ih ((m + 1) / 10)
          (by have := Nat.div_lt_self (Nat.succ_pos m) (by omega : 1 < 10); omega) d hd

theorem valAcc_append (l₁ l₂ : List Nat) : ∀ a,
    valAcc (l₁ ++ l₂) a = valAcc l₂ (valAcc l₁ a) := by
  induction l₁ with
  | nil => intro a; rfl
  | cons d l ih =>
    intro a
    show valAcc (l ++ l₂) (10 * a + d) = valAcc l₂ (valAcc l (10 * a + d))
    exact ih _

theorem valAcc_natDigitsAux (f : Nat) : ∀ n a, n ≤ f →
    valAcc (natDigitsAux f n).reverse a = a * 10 ^ (natDigitsAux f n).length + n := by
  induction f with
  | zero =>
    intro n a hn
    have : n = 0 := Nat.le_zero.mp hn
    subst this
    simp [natDigitsAux, valAcc]
  | succ f ih =>
    intro n a hn
    match n with
    | 0 => simp [natDigitsAux, valAcc]
    | m + 1 =>
      have hdiv : (m + 1) / 10 ≤ f := by
        have := Nat.div_lt_self (Nat.succ_pos m) (by omega : 1 < 10)
        omega
      have hrec := ih ((m + 1) / 10) a hdiv
      simp only [natDigitsAux, List.reverse_cons, valAcc_append, List.length_cons]
      rw [hrec]
      show 10 * (a * 10 ^ (natDigitsAux f ((m + 1) / 10)).length + (m + 1) / 10)
          + (m + 1) % 10 =
        a * 10 ^ ((natDigitsAux f ((m + 1) / 10)).length + 1) + (m + 1)
      rw [pow_succ, ← mul_assoc]
      generalize a * (10 : Nat) ^ (natDigitsAux f ((m + 1) / 10)).length = t
      omega

theorem valAcc_replicate_zero (k : Nat) : valAcc (List.replicate k 0) 0 = 0 := by
  induction k with
  | zero => rfl
  | succ k ih => simpa [List.replicate, valAcc] using ih

theorem readNatAux_digits (l : List Nat) (h : ∀ d ∈ l, d < 10) :
    ∀ a, readNatAux (l.map digitChar) a = some (valAcc l a) := by
  induction l with
  | nil => intro a; rfl
  | cons d l ih =>
    intro a
    have hd : d < 10 := h d (List.mem_cons_self d l)
    simp only [List.map_cons, readNatAux, digitVal_digitChar d hd, valAcc]
    exact ih (fun x hx => h x (List.mem_cons_of_mem d hx)) (10 * a + d)

theorem bigDigits_lt (n : Nat) : ∀ d ∈ bigDigits n, d < 10 := by
  intro d hd
  rw [bigDigits, List.mem_reverse] at hd
  exact natDigitsAux_lt n n le_rfl d hd

theorem padDigits_lt (w n : Nat) : ∀ d ∈ padDigits w n, d < 10 := by
  intro d hd
  rcases List.mem_append.mp hd with hd | hd
  · have := List.eq_of_mem_replicate hd; omega
  · exact bigDigits_lt n d hd

theorem padDigits_ne_nil (w n : Nat) (hw : 1 ≤ w) : padDigits w n ≠ [] := by
  rw [padDigits]
  cases hb : bigDigits n with
  | nil => simp [hb]; omega
  | cons d l => simp

theorem valAcc_padDigits (w n : Nat) : valAcc (padDigits w n) 0 = n := by
  rw [padDigits, valAcc_append, valAcc_replicate_zero]
  have := valAcc_natDigitsAux n n 0 le_rfl
  simpa [bigDigits] using this

theorem readChars_eq_aux (l : List Char) (h : l ≠ []) :
    readChars l = readNatAux l 0 := by
  cases l with
  | nil => exact absurd rfl h
  | cons c t => rfl

theorem readChars_padChars (w n : Nat) (hw : 1 ≤ w) :
    readChars (padChars w n) = some n := by
  rw [padChars, readChars_eq_aux]
  · rw [readNatAux_digits (padDigits w n) (padDigits_lt w n) 0, valAcc_padDigits]
  · simp only [ne_eq, List.map_eq_nil_iff]
    exact padDigits_ne_nil w n hw

theorem padChars_mem (w n : Nat) : ∀ c ∈ padChars w n, ∃ d, d < 10 ∧ c = digitChar d := by
  intro c hc
  rw [padChars, List.mem_map] at hc
  obtain ⟨d, hd, hcd⟩ := hc
  exact ⟨d, padDigits_lt w n d hd, hcd.symm⟩

theorem padChars_ne (w n : Nat) :
    ∀ c ∈ padChars w n, c ≠ 'T' ∧ c ≠ ' ' ∧ c ≠ '-' ∧ c ≠ ':' := by
  intro c hc
  obtain ⟨d, hd, rfl⟩ := padChars_mem w n c hc
  exact digitChar_ne d hd

theorem splitListOn_cons (sep c : Char) (l : List Char) :
    splitListOn sep (c :: l) =
      if c = sep then [] :: splitListOn sep l
      else
        match splitListOn sep l with
        | [] => [[c]]
        | h :: t => (c :: h) :: t := rfl

theorem splitListOn_no_sep (sep : Char) (l : List Char) (h : ∀ c ∈ l, c ≠ sep) :
    splitListOn sep l = [l] := by
  induction l with
  | nil => rfl
  | cons c t ih =>
    have hc : c ≠ sep := h c (List.mem_cons_self c t)
    have ht := ih (fun x hx => h x (List.mem_cons_of_mem c hx))
    rw [splitListOn_cons, if_neg hc, ht]

theorem splitListOn_append (sep : Char) (a b : List Char) (h : ∀ c ∈ a, c ≠ sep) :
    splitListOn sep (a ++ sep :: b) = a :: splitListOn sep b := by
  induction a with
  | nil =>
    show splitListOn sep (sep :: b) = [] :: splitListOn sep b
    rw [splitListOn_cons, if_pos rfl]
  | cons c t ih =>
    have hc : c ≠ sep := h c (List.mem_cons_self c t)
    have ht := ih (fun x hx => h x (List.mem_cons_of_mem c hx))
    show splitListOn sep (c :: (t ++ sep :: b)) = (c :: t) :: splitListOn sep b
    rw [splitListOn_cons, if_neg hc, ht]

theorem splitSep_cons (c : Char) (l : List Char) :
    splitSep (c :: l) =
      if c = 'T' ∨ c = ' ' then some ([], l)
      else (splitSep l).map (fun p => (c :: p.1, p.2)) := rfl

theorem splitSep_append (a b : List Char) (h : ∀ c ∈ a, c ≠ 'T' ∧ c ≠ ' ') :
    splitSep (a ++ ' ' :: b) = some (a, b) := by
  induction a with
  | nil =>
    show splitSep (' ' :: b) = some ([], b)
    rw [splitSep_cons, if_pos (Or.inr rfl)]
  | cons c t ih =>
    have hc := h c (List.mem_cons_self c t)
    have ht := ih (fun x hx => h x (List.mem_cons_of_mem c hx))
    show splitSep (c :: (t ++ ' ' :: b)) = some (c :: t, b)
    rw [splitSep_cons, if_neg (by tauto), ht]
    rfl

theorem parseDate_dateChars (d : Date)
    (h : 1 ≤ d.month ∧ d.month ≤ 12 ∧ 1 ≤ d.day ∧ d.day ≤ 31) :
    parseDate (dateChars d) = some d := by
  have hsplit : splitListOn '-' (dateChars d) =
      [padChars 4 d.year, padChars 2 d.month, padChars 2 d.day] := by
    rw [dateChars,
      splitListOn_append '-' _ _ (fun c hc => ((padChars_ne 4 d.year c hc).2.2).1),
      splitListOn_append '-' _ _ (fun c hc => ((padChars_ne 2 d.month c hc).2.2).1),
      splitListOn_no_sep '-' _ (fun c hc => ((padChars_ne 2 d.day c hc).2.2).1)]
  rw [parseDate, hsplit]
  simp only [readChars_padChars 4 d.year (by omega), readChars_padChars 2 d.month (by omega),
    readChars_padChars 2 d.day (by omega)]
  rw [if_pos h]

theorem parseTod_todChars (t : Tod)
    (h : t.hour ≤ 23 ∧ t.minute ≤ 59 ∧ t.second ≤ 59) :
    parseTod (todChars t) = some t := by
  have hsplit : splitListOn ':' (todChars t) =
      [padChars 2 t.hour, padChars 2 t.minute, padChars 2 t.second] := by
    rw [todChars,
      splitListOn_append ':' _ _ (fun c hc => (padChars_ne 2 t.hour c hc).2.2.2),
      splitListOn_append ':' _ _ (fun c hc => (padChars_ne 2 t.minute c hc).2.2.2),
      splitListOn_no_sep ':' _ (fun c hc => (padChars_ne 2 t.second c hc).2.2.2)]
  rw [parseTod, hsplit]
  simp only [readChars_padChars 2 t.hour (by omega), readChars_padChars 2 t.minute (by omega),
    readChars_padChars 2 t.second (by omega)]
  rw [if_pos h]

theorem parseDate_bounds (l : List Char) (d : Date) (h : parseDate l = some d) :
    1 ≤ d.month ∧ d.month ≤ 12 ∧ 1 ≤ d.day ∧ d.day ≤ 31 := by
  unfold parseDate at h
  split at h
  · split at h
    · split at h
      · obtain rfl : _ = d := Option.some.inj h
        assumption
      · exact absurd h (by simp)
    · exact absurd h (by simp)
  · exact absurd h (by simp)

theorem parseTod_bounds (l : List Char) (t : Tod) (h : parseTod l = some t) :
    t.hour ≤ 23 ∧ t.minute ≤ 59 ∧ t.second ≤ 59 := by
  unfold parseTod at h
  split at h
  · split at h
    · split at h
      · rename_i hcond
        obtain rfl : _ = t := Option.some.inj h
        exact ⟨hcond.1, hcond.2, by simp⟩
      · exact absurd h (by simp)
    · exact absurd h (by simp)
  · split at h
    · split at h
      · obtain rfl : _ = t := Option.some.inj h
        assumption
      · exact absurd h (by simp)
    · exact absurd h (by simp)
  · exact absurd h (by simp)

theorem dateChars_ne_sep (d : Date) : ∀ c ∈ dateChars d, c ≠ 'T' ∧ c ≠ ' ' := by
  intro c hc
  rw [dateChars] at hc
  simp only [List.mem_append, List.mem_cons] at hc
  rcases hc with hc | rfl | hc | rfl | hc
  · exact ⟨(padChars_ne 4 d.year c hc).1, (padChars_ne 4 d.year c hc).2.1⟩
  · exact ⟨by decide, by decide⟩
  · exact ⟨(padChars_ne 2 d.month c hc).1, (padChars_ne 2 d.month c hc).2.1⟩
  · exact ⟨by decide, by decide⟩
  · exact ⟨(padChars_ne 2 d.day c hc).1, (padChars_ne 2 d.day c hc).2.1⟩

/-- The round-trip core: if an ISO-8601 string parses to `(d, t)`, then
re-parsing `str(d) + " " + str(t)` (the recombination done on line 94 of
the source) yields `(d, t)` again. -/
theorem parseDT_roundtrip (s : String) (d : Date) (t : Tod)
    (h : parseDT s = some (d, t)) :
    parseDT ((⟨dateChars d⟩ : String) ++ " " ++ (⟨todChars t⟩ : String)) = some (d, t) := by
  have hdata : ((⟨dateChars d⟩ : String) ++ " " ++ (⟨todChars t⟩ : String)).data =
      dateChars d ++ ' ' :: todChars t := by
    simp
  have hbounds : (1 ≤ d.month ∧ d.month ≤ 12 ∧ 1 ≤ d.day ∧ d.day ≤ 31) ∧
      (t.hour ≤ 23 ∧ t.minute ≤ 59 ∧ t.second ≤ 59) := by
    unfold parseDT at h
    split at h
    · rename_i dp tp heq
      split at h
      · rename_i d0 t0 hd0 ht0
        have hp := Option.some.inj h
        injection hp with h1 h2
        subst h1; subst h2
        exact ⟨parseDate_bounds dp _ hd0, parseTod_bounds tp _ ht0⟩
      · exact absurd h (by simp)
    · exact absurd h (by simp)
  simp only [parseDT, hdata, splitSep_append _ _ (dateChars_ne_sep d),
    parseDate_dateChars d hbounds.1, parseTod_todChars t hbounds.2]

/-! ## Lemmas: association lists, columns and broadcast folds -/

theorem alookup_cons {α : Type} (p : String × α) (l : List (String × α)) (n : String) :
    alookup (p :: l) n = if p.1 = n then some p.2 else alookup l n := rfl

theorem alookup_append {α : Type} (l₁ l₂ : List (String × α)) (n : String) :
    alookup (l₁ ++ l₂) n =
      match alookup l₁ n with
      | some v => some v
      | none => alookup l₂ n := by
  induction l₁ with
  | nil => rfl
  | cons p t ih =>
    show alookup (p :: (t ++ l₂)) n = _
    rw [alookup_cons, alookup_cons]
    by_cases hp : p.1 = n
    · rw [if_pos hp, if_pos hp]
    · rw [if_neg hp, if_neg hp, ih]

theorem alookup_eq_none_iff {α : Type} (l : List (String × α)) (n : String) :
    alookup l n = none ↔ ∀ p ∈ l, p.1 ≠ n := by
  induction l with
  | nil => simp [alookup]
  | cons p t ih =>
    rw [alookup_cons]
    by_cases hp : p.1 = n
    · simp [hp]
    · simp only [if_neg hp, ih, List.mem_cons]
      constructor
      · rintro h q (rfl | hq)
        · exact hp
        · exact h q hq
      · intro h q hq
        exact h q (Or.inr hq)

theorem alookup_replace_self (l : List (String × List Value)) (n : String)
    (c : List Value) (h : (alookup l n).isSome) :
    alookup (l.map (fun p => if p.1 = n then (n, c) else p)) n = some c := by
  induction l with
  | nil => simp [alookup] at h
  | cons p t ih =>
    by_cases hp : p.1 = n
    · simp [List.map_cons, if_pos hp, alookup_cons]
    · rw [alookup_cons, if_neg hp] at h
      simp only [List.map_cons, if_neg hp, alookup_cons, if_neg hp]
      exact ih h

theorem alookup_replace_ne (l : List (String × List Value)) (n m : String)
    (c : List Value) (hm : m ≠ n) :
    alookup (l.map (fun p => if p.1 = n then (n, c) else p)) m = alookup l m := by
  induction l with
  | nil => rfl
  | cons p t ih =>
    by_cases hp : p.1 = n
    · have hpm : p.1 ≠ m := by rw [hp]; exact Ne.symm hm
      simp only [List.map_cons, if_pos hp, alookup_cons, if_neg (Ne.symm hm),
        if_neg hpm]
      exact ih
    · simp only [List.map_cons, if_neg hp, alookup_cons]
      by_cases hpm : p.1 = m
      · rw [if_pos hpm, if_pos hpm]
      · rw [if_neg hpm, if_neg hpm, ih]

theorem alookup_setCol_self (df : DataFrame) (n : String) (c : List Value) :
    alookup (df.setCol n c).cols n = some c := by
  unfold DataFrame.setCol
  by_cases hs : (alookup df.cols n).isSome
  · rw [if_pos hs]
    exact alookup_replace_self df.cols n c hs
  · rw [if_neg hs]
    show alookup (df.cols ++ [(n, c)]) n = some c
    rw [alookup_append, Option.not_isSome_iff_eq_none.mp hs]
    show alookup [(n, c)] n = some c
    rw [alookup_cons, if_pos rfl]

theorem alookup_setCol_ne (df : DataFrame) (n m : String) (c : List Value)
    (hm : m ≠ n) : alookup (df.setCol n c).cols m = alookup df.cols m := by
  unfold DataFrame.setCol
  by_cases hs : (alookup df.cols n).isSome
  · rw [if_pos hs]
    exact alookup_replace_ne df.cols n m c hm
  · rw [if_neg hs]
    show alookup (df.cols ++ [(n, c)]) m = alookup df.cols m
    rw [alookup_append]
    cases ha : alookup df.cols m with
    | some v => rfl
    | none =>
      show alookup [(n, c)] m = none
      rw [alookup_cons, if_neg (Ne.symm hm)]
      rfl

theorem getCol_eq_of_alookup (df : DataFrame) (n : String) (c : List Value)
    (h : alookup df.cols n = some c) : df.getCol n = .ok c := by
  unfold DataFrame.getCol
  rw [h]

theorem getCol_err_of_alookup (df : DataFrame) (n : String)
    (h : alookup df.cols n = none) : df.getCol n = .error (.keyError n) := by
  unfold DataFrame.getCol
  rw [h]

theorem alookup_setColB_self (df : DataFrame) (n : String) (v : Value) :
    alookup (df.setColB n v).cols n = some (List.replicate df.nrows v) :=
  alookup_setCol_self df n (List.replicate df.nrows v)

theorem alookup_setColB_ne (df : DataFrame) (n m : String) (v : Value)
    (hm : m ≠ n) : alookup (df.setColB n v).cols m = alookup df.cols m :=
  alookup_setCol_ne df n m (List.replicate df.nrows v) hm

theorem nrows_setColB (df : DataFrame) (n : String) (v : Value) :
    (df.setColB n v).nrows = df.nrows := by
  unfold DataFrame.setColB DataFrame.setCol
  by_cases hs : (alookup df.cols n).isSome
  · rw [if_pos hs]
    cases hcols : df.cols with
    | nil => rw [hcols] at hs; simp [alookup] at hs
    | cons p rest =>
      show (DataFrame.mk (((p :: rest).map
        (fun q => if q.1 = n then (n, List.replicate df.nrows v) else q)))).nrows = df.nrows
      by_cases hp : p.1 = n
      · simp [DataFrame.nrows, hp]
      · simp only [List.map_cons, if_neg hp]
        show p.2.length = df.nrows
        simp [DataFrame.nrows, hcols]
  · rw [if_neg hs]
    cases hcols : df.cols with
    | nil =>
      show (DataFrame.mk ([] ++ [(n, List.replicate df.nrows v)])).nrows = df.nrows
      simp [DataFrame.nrows, hcols]
    | cons p rest =>
      show (DataFrame.mk ((p :: rest) ++ [(n, List.replicate df.nrows v)])).nrows = df.nrows
      simp [DataFrame.nrows, hcols]

theorem mem_colNames_setCol (df : DataFrame) (n : String) (c : List Value)
    (k : String) (h : k ∈ colNames (df.setCol n c)) : k ∈ colNames df ∨ k = n := by
  unfold DataFrame.setCol at h
  by_cases hs : (alookup df.cols n).isSome
  · rw [if_pos hs] at h
    simp only [colNames, List.map_map, List.mem_map, Function.comp] at h
    obtain ⟨p, hp, hpk⟩ := h
    by_cases hpn : p.1 = n
    · rw [if_pos hpn] at hpk
      exact Or.inr hpk.symm
    · rw [if_neg hpn] at hpk
      exact Or.inl (by simp only [colNames, List.mem_map]; exact ⟨p, hp, hpk⟩)
  · rw [if_neg hs] at h
    simp only [colNames, List.map_append, List.mem_append] at h
    rcases h with h | h
    · exact Or.inl h
    · simp at h
      exact Or.inr h

theorem bfold_cons (g : String → String) (p : String × Value)
    (t : List (String × Value)) (df : DataFrame) :
    bfold g (p :: t) df = bfold g t (df.setColB (g p.1) p.2) := rfl

theorem nrows_bfold (g : String → String) (l : List (String × Value)) :
    ∀ df : DataFrame, (bfold g l df).nrows = df.nrows := by
  induction l with
  | nil => intro df; rfl
  | cons p t ih =>
    intro df
    rw [bfold_cons, ih, nrows_setColB]

theorem alookup_bfold_notMem (g : String → String) (l : List (String × Value))
    (n : String) (h : ∀ p ∈ l, g p.1 ≠ n) :
    ∀ df : DataFrame, alookup (bfold g l df).cols n = alookup df.cols n := by
  induction l with
  | nil => intro df; rfl
  | cons p t ih =>
    intro df
    rw [bfold_cons, ih (fun q hq => h q (List.mem_cons_of_mem p hq)),
      alookup_setColB_ne _ _ _ _ (Ne.symm (h p (List.mem_cons_self p t)))]

theorem alookup_bfold_mem (g : String → String) (l : List (String × Value))
    (k : String) (u : Value) (hg : ∀ p ∈ l, g p.1 = g k → p.1 = k)
    (hk : alookup l k = some u) (hnd : (l.map Prod.fst).Nodup) :
    ∀ df : DataFrame, alookup (bfold g l df).cols (g k) =
      some (List.replicate df.nrows u) := by
  induction l with
  | nil => simp [alookup] at hk
  | cons p t ih =>
    intro df
    rw [bfold_cons]
    have hnd2 : p.1 ∉ t.map Prod.fst ∧ (t.map Prod.fst).Nodup := by
      rw [List.map_cons] at hnd
      exact List.nodup_cons.mp hnd
    by_cases hp : p.1 = k
    · have hu : p.2 = u := by
        rw [alookup_cons, if_pos hp] at hk
        exact Option.some.inj hk
      have hnot : ∀ q ∈ t, g q.1 ≠ g k := by
        intro q hq e
        have hqk : q.1 = k := hg q (List.mem_cons_of_mem p hq) e
        have hmem : p.1 ∈ t.map Prod.fst := by
          rw [hp, ← hqk]
          exact List.mem_map_of_mem Prod.fst hq
        exact hnd2.1 hmem
      rw [alookup_bfold_notMem g t (g k) hnot, ← hp, hu, alookup_setColB_self]
    · have hk2 : alookup t k = some u := by
        rw [alookup_cons, if_neg hp] at hk
        exact hk
      rw [ih (fun q hq => hg q (List.mem_cons_of_mem p hq)) hk2 hnd2.2
        (df.setColB (g p.1) p.2), nrows_setColB]

theorem mem_colNames_bfold (g : String → String) (l : List (String × Value))
    (k : String) : ∀ df : DataFrame, k ∈ colNames (bfold g l df) →
      k ∈ colNames df ∨ ∃ p, p ∈ l ∧ k = g p.1 := by
  induction l with
  | nil => intro df h; exact Or.inl h
  | cons p t ih =>
    intro df h
    rw [bfold_cons] at h
    rcases ih (df.setColB (g p.1) p.2) h with h2 | ⟨q, hq, hkq⟩
    · rcases mem_colNames_setCol _ _ _ _ h2 with h3 | h3
      · exact Or.inl h3
      · exact Or.inr ⟨p, List.mem_cons_self p t, h3⟩
    · exact Or.inr ⟨q, List.mem_cons_of_mem p hq, hkq⟩

theorem alookup_renameCols (l : List (String × List Value)) (n σn : String)
    (h1 : renameKey σn = n) (h2 : ∀ p ∈ l, renameKey p.1 = n → p.1 = σn) :
    alookup (l.map (fun p => (renameKey p.1, p.2))) n = alookup l σn := by
  induction l with
  | nil => rfl
  | cons p t ih =>
    simp only [List.map_cons, alookup_cons]
    by_cases hr : renameKey p.1 = n
    · rw [if_pos hr, if_pos (h2 p (List.mem_cons_self p t) hr)]
    · have hpσ : p.1 ≠ σn := fun e => hr (by rw [e, h1])
      rw [if_neg hr, if_neg hpσ]
      exact ih (fun q hq => h2 q (List.mem_cons_of_mem p hq))

theorem string_append_right_cancel (a b s : String) (h : a ++ s = b ++ s) :
    a = b := by
  obtain ⟨la⟩ := a
  obtain ⟨lb⟩ := b
  obtain ⟨ls⟩ := s
  have hd : la ++ ls = lb ++ ls := congrArg String.data h
  have : la = lb := by simpa using hd
  rw [this]

theorem unitName_inj (a b : String) (h : unitName a = unitName b) : a = b :=
  string_append_right_cancel a b "_unit" h

theorem mapExcept_cons {α β : Type} (f : α → Except Err β) (a : α) (l : List α) :
    mapExcept f (a :: l) =
      match f a with
      | .error e => .error e
      | .ok b =>
        match mapExcept f l with
        | .error e => .error e
        | .ok bs => .ok (b :: bs) := rfl

theorem mapExcept_ok {α β : Type} (f : α → Except Err β) (g : α → β)
    (l : List α) (h : ∀ a ∈ l, f a = .ok (g a)) :
    mapExcept f l = .ok (l.map g) := by
  induction l with
  | nil => rfl
  | cons a t ih =>
    rw [mapExcept_cons, h a (List.mem_cons_self a t),
      ih (fun x hx => h x (List.mem_cons_of_mem a hx))]
    rfl

theorem project_cons (df : DataFrame) (n : String) (ns : List String) :
    project df (n :: ns) =
      match df.getCol n with
      | .error e => .error e
      | .ok c =>
        match project df ns with
        | .error e => .error e
        | .ok t => .ok ⟨(n, c) :: t.cols⟩ := rfl

theorem project_names (df : DataFrame) : ∀ (names : List String) (t : DataFrame),
    project df names = .ok t → colNames t = names := by
  intro names
  induction names with
  | nil =>
    intro t h
    have ht : DataFrame.mk [] = t := Except.ok.inj h
    rw [← ht]
    rfl
  | cons n ns ih =>
    intro t h
    rw [project_cons] at h
    cases hg : df.getCol n with
    | error e => rw [hg] at h; exact absurd h (by simp)
    | ok c =>
      rw [hg] at h
      cases hp : project df ns with
      | error e => rw [hp] at h; exact absurd h (by simp)
      | ok t2 =>
        rw [hp] at h
        have ht : DataFrame.mk ((n, c) :: t2.cols) = t := Except.ok.inj h
        rw [← ht]
        show n :: colNames t2 = n :: ns
        rw [ih t2 hp]

theorem mkDataFrame_ok (m : List (String × List Value)) (N : Nat) (hne : m ≠ [])
    (hlen : ∀ p ∈ m, p.2.length = N) : mkDataFrame m = .ok ⟨m⟩ := by
  cases m with
  | nil => exact absurd rfl hne
  | cons p rest =>
    have hall : rest.all (fun q => q.2.length == p.2.length) = true := by
      rw [List.all_eq_true]
      intro q hq
      have h1 := hlen q (List.mem_cons_of_mem p hq)
      have h2 := hlen p (List.mem_cons_self p rest)
      rw [h1, h2]
      exact beq_self_eq_true N
    have heq : mkDataFrame (p :: rest) =
        if rest.all (fun q => q.2.length == p.2.length) then .ok ⟨p :: rest⟩
        else .error .valueError := rfl
    rw [heq, if_pos hall]

/-! ## Valid documents and the shape of the transformed table -/

/-- Parse one raw `hourly.time` cell (a string in the documented format). -/
def parseCell (v : Value) : Option (Date × Tod) :=
  match v with
  | .str s => parseDT s
  | _ => none

/-- The datetime value `pd.to_datetime` produces for a raw time cell. -/
def dtOf (v : Value) : Value :=
  match parseCell v with
  | some p => .dt p.1 p.2
  | none => v

/-- The `.dt.date` component for a raw time cell. -/
def dateOf (v : Value) : Value :=
  match parseCell v with
  | some p => .date p.1
  | none => v

/-- The `.dt.time` component for a raw time cell. -/
def todOf (v : Value) : Value :=
  match parseCell v with
  | some p => .tod p.2
  | none => v

/-- Column labels with a fixed role somewhere in the pipeline.  A document
whose extra hourly variables avoid these labels cannot collide with the
labels the pipeline creates, reads, renames or projects. -/
def reservedNames : List String :=
  ["time", "temperature_2m", "hour", "temperature", "latitude", "longitude",
   "generationtime_ms", "utc_offset_seconds", "timezone",
   "timezone_abbreviation", "elevation", "time_unit", "temperature_unit",
   "temperature_2m_unit", "datetime"]

/-- The seven metadata labels (top-level scalar keys of the document). -/
def metaNames : List String :=
  ["latitude", "longitude", "generationtime_ms", "utc_offset_seconds",
   "timezone", "timezone_abbreviation", "elevation"]

/-- Validity of the `hourly` mapping (§3 invariant): it has a `time` key
whose entries are parseable timestamp strings, all sequences have the same
length, keys are distinct (Python dict), and any hourly variable other
than `time`/`temperature_2m` avoids the pipeline's reserved labels. -/
def HourlyOk (d : Forecast) (ts : List Value) : Prop :=
  alookup d.hourly "time" = some ts ∧
  (∀ v ∈ ts, (parseCell v).isSome = true) ∧
  (∀ p ∈ d.hourly, p.2.length = ts.length) ∧
  (d.hourly.map Prod.fst).Nodup ∧
  (∀ p ∈ d.hourly, p.1 = "time" ∨ p.1 = "temperature_2m" ∨
    (p.1 ∉ reservedNames ∧ unitName p.1 ∉ reservedNames))

/-- Validity of the `hourly_units` mapping: distinct keys, and any unit
key other than `time`/`temperature_2m` produces a non-reserved column. -/
def UnitsOk (d : Forecast) : Prop :=
  (d.hourly_units.map Prod.fst).Nodup ∧
  (∀ p ∈ d.hourly_units, p.1 = "time" ∨ p.1 = "temperature_2m" ∨
    unitName p.1 ∉ reservedNames)

instance instDecidableHourlyOk (d : Forecast) (ts : List Value) :
    Decidable (HourlyOk d ts) := by
  unfold HourlyOk
  infer_instance

instance instDecidableUnitsOk (d : Forecast) : Decidable (UnitsOk d) := by
  unfold UnitsOk
  infer_instance

theorem toDatetimeCell_eq (v : Value) (h : (parseCell v).isSome = true) :
    toDatetimeCell v = .ok (dtOf v) := by
  cases v with
  | str s =>
    have hp : parseCell (Value.str s) = parseDT s := rfl
    cases hq : parseDT s with
    | none => rw [hp, hq] at h; simp at h
    | some p =>
      show (match parseDT s with
        | some p => Except.ok (Value.dt p.1 p.2)
        | none => Except.error Err.parseError) = .ok (dtOf (.str s))
      rw [hq]
      unfold dtOf
      rw [hp, hq]
  | num q => simp [parseCell] at h
  | date dd => simp [parseCell] at h
  | tod tt => simp [parseCell] at h
  | dt dd tt => simp [parseCell] at h

theorem mapExcept_toDatetime (ts : List Value)
    (h : ∀ v ∈ ts, (parseCell v).isSome = true) :
    mapExcept toDatetimeCell ts = .ok (ts.map dtOf) :=
  mapExcept_ok toDatetimeCell dtOf ts (fun v hv => toDatetimeCell_eq v (h v hv))

theorem mapExcept_dtTime (ts : List Value)
    (h : ∀ v ∈ ts, (parseCell v).isSome = true) :
    mapExcept dtTimeCell (ts.map dtOf) = .ok (ts.map todOf) := by
  induction ts with
  | nil => rfl
  | cons v t ih =>
    have hv := h v (List.mem_cons_self v t)
    have hcell : dtTimeCell (dtOf v) = .ok (todOf v) := by
      cases hq : parseCell v with
      | none => rw [hq] at hv; simp at hv
      | some p =>
        unfold dtOf todOf
        rw [hq]
        rfl
    rw [List.map_cons, mapExcept_cons, hcell,
      ih (fun x hx => h x (List.mem_cons_of_mem v hx))]
    rfl

theorem mapExcept_dtDate (ts : List Value)
    (h : ∀ v ∈ ts, (parseCell v).isSome = true) :
    mapExcept dtDateCell (ts.map dtOf) = .ok (ts.map dateOf) := by
  induction ts with
  | nil => rfl
  | cons v t ih =>
    have hv := h v (List.mem_cons_self v t)
    have hcell : dtDateCell (dtOf v) = .ok (dateOf v) := by
      cases hq : parseCell v with
      | none => rw [hq] at hv; simp at hv
      | some p =>
        unfold dtOf dateOf
        rw [hq]
        rfl
    rw [List.map_cons, mapExcept_cons, hcell,
      ih (fun x hx => h x (List.mem_cons_of_mem v hx))]
    rfl

theorem nrows_mk (m : List (String × List Value)) (N : Nat) (hne : m ≠ [])
    (hlen : ∀ p ∈ m, p.2.length = N) : (DataFrame.mk m).nrows = N := by
  cases m with
  | nil => exact absurd rfl hne
  | cons p rest =>
    show p.2.length = N
    exact hlen p (List.mem_cons_self p rest)

/-! ## The flattened table -/

/-- The value of `flatten_hourly_data` on a document whose hourly
sequences have equal lengths: the hourly columns, then the broadcast
metadata columns, then the broadcast unit columns. -/
def flatDF (d : Forecast) : DataFrame :=
  bfold unitName d.hourly_units (bfold id (topItems d) ⟨d.hourly⟩)

theorem flatten_eq (d : Forecast) (N : Nat) (hne : d.hourly ≠ [])
    (hlen : ∀ p ∈ d.hourly, p.2.length = N) :
    flatten_hourly_data d = .ok (flatDF d) := by
  unfold flatten_hourly_data
  rw [mkDataFrame_ok d.hourly N hne hlen]
  rfl

theorem nrows_flatDF (d : Forecast) (N : Nat) (hne : d.hourly ≠ [])
    (hlen : ∀ p ∈ d.hourly, p.2.length = N) : (flatDF d).nrows = N := by
  unfold flatDF
  rw [nrows_bfold, nrows_bfold, nrows_mk d.hourly N hne hlen]

/-- The unit-columns loop never writes a column named `n`, for any `n`
that is reserved but is not one of the two unit labels. -/
theorem units_notMem (d : Forecast)
    (hU2 : ∀ p ∈ d.hourly_units, p.1 = "time" ∨ p.1 = "temperature_2m" ∨
      unitName p.1 ∉ reservedNames)
    (n : String) (hres : n ∈ reservedNames) (h1 : n ≠ "time_unit")
    (h2 : n ≠ "temperature_2m_unit") :
    ∀ p ∈ d.hourly_units, unitName p.1 ≠ n := by
  intro p hp
  rcases hU2 p hp with h | h | h
  · rw [h]
    show "time_unit" ≠ n
    exact Ne.symm h1
  · rw [h]
    show "temperature_2m_unit" ≠ n
    exact Ne.symm h2
  · exact fun e => h (e ▸ hres)

/-- Looking up a non-metadata, non-unit label in the flattened table
reaches the raw hourly columns. -/
theorem alookup_flatDF_hourly (d : Forecast)
    (hU2 : ∀ p ∈ d.hourly_units, p.1 = "time" ∨ p.1 = "temperature_2m" ∨
      unitName p.1 ∉ reservedNames)
    (n : String) (hres : n ∈ reservedNames) (h1 : n ≠ "time_unit")
    (h2 : n ≠ "temperature_2m_unit")
    (h3 : n ∉ metaNames) :
    alookup (flatDF d).cols n = alookup d.hourly n := by
  unfold flatDF
  rw [alookup_bfold_notMem unitName d.hourly_units n (units_notMem d hU2 n hres h1 h2)]
  rw [alookup_bfold_notMem id (topItems d) n ?hmeta]
  case hmeta =>
    intro p hp
    have hp2 : p.1 ∈ metaNames := by
      simp only [topItems, List.mem_cons, List.not_mem_nil, or_false] at hp
      rcases hp with rfl | rfl | rfl | rfl | rfl | rfl | rfl <;> simp [metaNames]
    show p.1 ≠ n
    exact fun e => h3 (e ▸ hp2)

/-- Looking up one of the seven metadata labels in the flattened table
yields the broadcast scalar. -/
theorem alookup_flatDF_meta (d : Forecast) (N : Nat)
    (hne : d.hourly ≠ []) (hlen : ∀ p ∈ d.hourly, p.2.length = N)
    (hU2 : ∀ p ∈ d.hourly_units, p.1 = "time" ∨ p.1 = "temperature_2m" ∨
      unitName p.1 ∉ reservedNames)
    (m : String) (v : Value) (hmk : alookup (topItems d) m = some v)
    (hres : m ∈ reservedNames) (h1 : m ≠ "time_unit")
    (h2 : m ≠ "temperature_2m_unit") :
    alookup (flatDF d).cols m = some (List.replicate N v) := by
  unfold flatDF
  rw [alookup_bfold_notMem unitName d.hourly_units m (units_notMem d hU2 m hres h1 h2)]
  have := alookup_bfold_mem id (topItems d) m v
    (fun p _ e => e) hmk (by simp [topItems]) ⟨d.hourly⟩
  rw [nrows_mk d.hourly N hne hlen] at this
  exact this

/-- Looking up a unit column in the flattened table yields the broadcast
unit string. -/
theorem alookup_flatDF_unit (d : Forecast) (N : Nat)
    (hne : d.hourly ≠ []) (hlen : ∀ p ∈ d.hourly, p.2.length = N)
    (hnd : (d.hourly_units.map Prod.fst).Nodup)
    (k : String) (u : Value) (hk : alookup d.hourly_units k = some u) :
    alookup (flatDF d).cols (unitName k) = some (List.replicate N u) := by
  unfold flatDF
  have := alookup_bfold_mem unitName d.hourly_units k u
    (fun p _ e => unitName_inj p.1 k e) hk hnd (bfold id (topItems d) ⟨d.hourly⟩)
  rw [nrows_bfold, nrows_mk d.hourly N hne hlen] at this
  exact this

/-! ## The table just before renaming, and rename uniqueness -/

/-- The table state after line 68 of the source (time parsed, split into
the date column `time` and the time-of-day column `hour`). -/
def preDF (d : Forecast) (ts : List Value) : DataFrame :=
  (((flatDF d).setCol "time" (ts.map dtOf)).setCol "hour"
    (ts.map todOf)).setCol "time" (ts.map dateOf)

theorem alookup_preDF_time (d : Forecast) (ts : List Value) :
    alookup (preDF d ts).cols "time" = some (ts.map dateOf) :=
  alookup_setCol_self _ _ _

theorem alookup_preDF_hour (d : Forecast) (ts : List Value) :
    alookup (preDF d ts).cols "hour" = some (ts.map todOf) := by
  unfold preDF
  rw [alookup_setCol_ne _ _ _ _ (by decide), alookup_setCol_self]

theorem alookup_preDF_other (d : Forecast) (ts : List Value) (n : String)
    (h1 : n ≠ "time") (h2 : n ≠ "hour") :
    alookup (preDF d ts).cols n = alookup (flatDF d).cols n := by
  unfold preDF
  rw [alookup_setCol_ne _ _ _ _ h1, alookup_setCol_ne _ _ _ _ h2,
    alookup_setCol_ne _ _ _ _ h1]

/-- Every column label of the pre-rename table comes from the hourly
mapping, the metadata, the unit loop, or the two derived columns. -/
theorem mem_colNames_preDF (d : Forecast) (ts : List Value) (k : String)
    (h : k ∈ colNames (preDF d ts)) :
    k = "time" ∨ k = "hour" ∨ k ∈ d.hourly.map Prod.fst ∨ k ∈ metaNames ∨
      ∃ p, p ∈ d.hourly_units ∧ k = unitName p.1 := by
  unfold preDF at h
  rcases mem_colNames_setCol _ _ _ _ h with h | h
  · rcases mem_colNames_setCol _ _ _ _ h with h | h
    · rcases mem_colNames_setCol _ _ _ _ h with h | h
      · unfold flatDF at h
        rcases mem_colNames_bfold _ _ _ _ h with h | ⟨p, hp, hk⟩
        · rcases mem_colNames_bfold _ _ _ _ h with h | ⟨p, hp, hk⟩
          · exact Or.inr (Or.inr (Or.inl h))
          · refine Or.inr (Or.inr (Or.inr (Or.inl ?_)))
            rw [hk]
            simp only [topItems, List.mem_cons, List.not_mem_nil, or_false] at hp
            rcases hp with rfl | rfl | rfl | rfl | rfl | rfl | rfl <;> simp [metaNames]
        · exact Or.inr (Or.inr (Or.inr (Or.inr ⟨p, hp, hk⟩)))
      · exact Or.inl h
    · exact Or.inr (Or.inl h)
  · exact Or.inl h

theorem renameKey_not_reserved (k : String) (h : k ∉ reservedNames) :
    renameKey k = k := by
  unfold renameKey
  rw [if_neg, if_neg]
  · exact fun e => h (e ▸ (by decide : ("temperature_2m_unit" : String) ∈ reservedNames))
  · exact fun e => h (e ▸ (by decide : ("temperature_2m" : String) ∈ reservedNames))

/-- On any label that can occur in the pre-rename table of a valid
document, `renameKey` hits each projected label from a unique source. -/
theorem renameKey_unique (d : Forecast)
    (hH5 : ∀ p ∈ d.hourly, p.1 = "time" ∨ p.1 = "temperature_2m" ∨
      (p.1 ∉ reservedNames ∧ unitName p.1 ∉ reservedNames))
    (hU2 : ∀ p ∈ d.hourly_units, p.1 = "time" ∨ p.1 = "temperature_2m" ∨
      unitName p.1 ∉ reservedNames)
    (k : String)
    (hk : k = "time" ∨ k = "hour" ∨ k ∈ d.hourly.map Prod.fst ∨ k ∈ metaNames ∨
      ∃ p, p ∈ d.hourly_units ∧ k = unitName p.1) :
    (renameKey k = "time" → k = "time") ∧
    (renameKey k = "hour" → k = "hour") ∧
    (renameKey k = "temperature" → k = "temperature_2m") ∧
    (renameKey k = "latitude" → k = "latitude") ∧
    (renameKey k = "longitude" → k = "longitude") ∧
    (renameKey k = "generationtime_ms" → k = "generationtime_ms") ∧
    (renameKey k = "utc_offset_seconds" → k = "utc_offset_seconds") ∧
    (renameKey k = "timezone" → k = "timezone") ∧
    (renameKey k = "timezone_abbreviation" → k = "timezone_abbreviation") ∧
    (renameKey k = "elevation" → k = "elevation") ∧
    (renameKey k = "time_unit" → k = "time_unit") ∧
    (renameKey k = "temperature_unit" → k = "temperature_2m_unit") := by
  have hNR : ∀ (x : String), x ∉ reservedNames →
      (renameKey x = "time" → x = "time") ∧
      (renameKey x = "hour" → x = "hour") ∧
      (renameKey x = "temperature" → x = "temperature_2m") ∧
      (renameKey x = "latitude" → x = "latitude") ∧
      (renameKey x = "longitude" → x = "longitude") ∧
      (renameKey x = "generationtime_ms" → x = "generationtime_ms") ∧
      (renameKey x = "utc_offset_seconds" → x = "utc_offset_seconds") ∧
      (renameKey x = "timezone" → x = "timezone") ∧
      (renameKey x = "timezone_abbreviation" → x = "timezone_abbreviation") ∧
      (renameKey x = "elevation" → x = "elevation") ∧
      (renameKey x = "time_unit" → x = "time_unit") ∧
      (renameKey x = "temperature_unit" → x = "temperature_2m_unit") := by
    intro x hx
    rw [renameKey_not_reserved x hx]
    refine ⟨?_, ?_, ?_, ?_, ?_, ?_, ?_, ?_, ?_, ?_, ?_, ?_⟩ <;>
      exact fun e => absurd (by decide) (e ▸ hx)
  rcases hk with rfl | rfl | hk | hk | ⟨p, hp, rfl⟩
  · decide
  · decide
  · rw [List.mem_map] at hk
    obtain ⟨p, hp, rfl⟩ := hk
    rcases hH5 p hp with h | h | h
    · rw [h]; decide
    · rw [h]; decide
    · exact hNR p.1 h.1
  · simp only [metaNames, List.mem_cons, List.not_mem_nil, or_false] at hk
    rcases hk with rfl | rfl | rfl | rfl | rfl | rfl | rfl <;> decide
  · rcases hU2 p hp with h | h | h
    · rw [h]; decide
    · rw [h]; decide
    · exact hNR (unitName p.1) h

theorem renameCols_cols (df : DataFrame) :
    (renameCols df).cols = df.cols.map (fun p => (renameKey p.1, p.2)) := rfl

/-- On a document whose time column exists, parses, and whose hourly
sequences have equal length, `transform_data` reduces to the projection of
the renamed pre-table. -/
theorem transform_eq_project (d : Forecast) (ts : List Value)
    (h1 : alookup d.hourly "time" = some ts)
    (h2 : ∀ v ∈ ts, (parseCell v).isSome = true)
    (h3 : ∀ p ∈ d.hourly, p.2.length = ts.length)
    (hu2 : ∀ p ∈ d.hourly_units, p.1 = "time" ∨ p.1 = "temperature_2m" ∨
      unitName p.1 ∉ reservedNames) :
    transform_data d = project (renameCols (preDF d ts)) ordered_columns := by
  have hne : d.hourly ≠ [] := by
    intro e
    rw [e] at h1
    simp [alookup] at h1
  have hflat := flatten_eq d ts.length hne h3
  have hFtime : alookup (flatDF d).cols "time" = some ts := by
    rw [alookup_flatDF_hourly d hu2 "time" (by decide) (by decide) (by decide)
      (by decide)]
    exact h1
  have hg0 : (flatDF d).getCol "time" = .ok ts :=
    getCol_eq_of_alookup _ _ _ hFtime
  have hm1 := mapExcept_toDatetime ts h2
  have hg1 : ((flatDF d).setCol "time" (ts.map dtOf)).getCol "time" =
      .ok (ts.map dtOf) :=
    getCol_eq_of_alookup _ _ _ (alookup_setCol_self _ _ _)
  have hm2 := mapExcept_dtTime ts h2
  have hg2 : (((flatDF d).setCol "time" (ts.map dtOf)).setCol "hour"
      (ts.map todOf)).getCol "time" = .ok (ts.map dtOf) :=
    getCol_eq_of_alookup _ _ _
      (by rw [alookup_setCol_ne _ _ _ _ (by decide)]
          exact alookup_setCol_self _ _ _)
  have hm3 := mapExcept_dtDate ts h2
  unfold transform_data
  rw [hflat]
  simp only [hg0, hm1, hg1, hm2, hg2, hm3]
  rfl

/-- `renameKey` is injective on the labels of the pre-rename table of a
valid document, towards each projected label. -/
theorem huniq_preDF (d : Forecast) (ts : List Value)
    (hext : ∀ p ∈ d.hourly, p.1 = "time" ∨ p.1 = "temperature_2m" ∨
      (p.1 ∉ reservedNames ∧ unitName p.1 ∉ reservedNames))
    (hu2 : ∀ p ∈ d.hourly_units, p.1 = "time" ∨ p.1 = "temperature_2m" ∨
      unitName p.1 ∉ reservedNames) :
    ∀ p ∈ (preDF d ts).cols,
      (renameKey p.1 = "time" → p.1 = "time") ∧
      (renameKey p.1 = "hour" → p.1 = "hour") ∧
      (renameKey p.1 = "temperature" → p.1 = "temperature_2m") ∧
      (renameKey p.1 = "latitude" → p.1 = "latitude") ∧
      (renameKey p.1 = "longitude" → p.1 = "longitude") ∧
      (renameKey p.1 = "generationtime_ms" → p.1 = "generationtime_ms") ∧
      (renameKey p.1 = "utc_offset_seconds" → p.1 = "utc_offset_seconds") ∧
      (renameKey p.1 = "timezone" → p.1 = "timezone") ∧
      (renameKey p.1 = "timezone_abbreviation" → p.1 = "timezone_abbreviation") ∧
      (renameKey p.1 = "elevation" → p.1 = "elevation") ∧
      (renameKey p.1 = "time_unit" → p.1 = "time_unit") ∧
      (renameKey p.1 = "temperature_unit" → p.1 = "temperature_2m_unit") :=
  fun p hp => renameKey_unique d hext hu2 p.1
    (mem_colNames_preDF d ts p.1 (List.mem_map_of_mem Prod.fst hp))

theorem rename_preDF_time (d : Forecast) (ts : List Value)
    (hext : ∀ p ∈ d.hourly, p.1 = "time" ∨ p.1 = "temperature_2m" ∨
      (p.1 ∉ reservedNames ∧ unitName p.1 ∉ reservedNames))
    (hu2 : ∀ p ∈ d.hourly_units, p.1 = "time" ∨ p.1 = "temperature_2m" ∨
      unitName p.1 ∉ reservedNames) :
    alookup (renameCols (preDF d ts)).cols "time" = some (ts.map dateOf) := by
  rw [renameCols_cols, alookup_renameCols _ "time" "time" (by decide)
    (fun p hp => (huniq_preDF d ts hext hu2 p hp).1)]
  exact alookup_preDF_time d ts

theorem rename_preDF_hour (d : Forecast) (ts : List Value)
    (hext : ∀ p ∈ d.hourly, p.1 = "time" ∨ p.1 = "temperature_2m" ∨
      (p.1 ∉ reservedNames ∧ unitName p.1 ∉ reservedNames))
    (hu2 : ∀ p ∈ d.hourly_units, p.1 = "time" ∨ p.1 = "temperature_2m" ∨
      unitName p.1 ∉ reservedNames) :
    alookup (renameCols (preDF d ts)).cols "hour" = some (ts.map todOf) := by
  rw [renameCols_cols, alookup_renameCols _ "hour" "hour" (by decide)
    (fun p hp => (huniq_preDF d ts hext hu2 p hp).2.1)]
  exact alookup_preDF_hour d ts

/-- The renamed `temperature` column is exactly the raw
`hourly.temperature_2m` entry of the document (present or not). -/
theorem rename_preDF_temperature (d : Forecast) (ts : List Value)
    (hext : ∀ p ∈ d.hourly, p.1 = "time" ∨ p.1 = "temperature_2m" ∨
      (p.1 ∉ reservedNames ∧ unitName p.1 ∉ reservedNames))
    (hu2 : ∀ p ∈ d.hourly_units, p.1 = "time" ∨ p.1 = "temperature_2m" ∨
      unitName p.1 ∉ reservedNames) :
    alookup (renameCols (preDF d ts)).cols "temperature" =
      alookup d.hourly "temperature_2m" := by
  rw [renameCols_cols, alookup_renameCols _ "temperature" "temperature_2m"
    (by decide) (fun p hp => (huniq_preDF d ts hext hu2 p hp).2.2.1),
    alookup_preDF_other d ts "temperature_2m" (by decide) (by decide)]
  exact alookup_flatDF_hourly d hu2 "temperature_2m" (by decide) (by decide)
    (by decide) (by decide)

theorem rename_preDF_meta (d : Forecast) (ts : List Value)
    (hne : d.hourly ≠ []) (h3 : ∀ p ∈ d.hourly, p.2.length = ts.length)
    (hext : ∀ p ∈ d.hourly, p.1 = "time" ∨ p.1 = "temperature_2m" ∨
      (p.1 ∉ reservedNames ∧ unitName p.1 ∉ reservedNames))
    (hu2 : ∀ p ∈ d.hourly_units, p.1 = "time" ∨ p.1 = "temperature_2m" ∨
      unitName p.1 ∉ reservedNames)
    (m : String) (v : Value) (hmk : alookup (topItems d) m = some v)
    (hres : m ∈ reservedNames) (hm1 : m ≠ "time_unit")
    (hm2 : m ≠ "temperature_2m_unit") (hm3 : m ≠ "time") (hm4 : m ≠ "hour")
    (hm5 : m ≠ "temperature_2m")
    (hcomp : ∀ p ∈ (preDF d ts).cols, renameKey p.1 = m → p.1 = m) :
    alookup (renameCols (preDF d ts)).cols m =
      some (List.replicate ts.length v) := by
  have hrk : renameKey m = m := by
    unfold renameKey
    rw [if_neg hm5, if_neg hm2]
  rw [renameCols_cols, alookup_renameCols _ m m hrk hcomp,
    alookup_preDF_other d ts m hm3 hm4]
  exact alookup_flatDF_meta d ts.length hne h3 hu2 m v hmk hres hm1 hm2

theorem rename_preDF_time_unit (d : Forecast) (ts : List Value) (ut : Value)
    (hne : d.hourly ≠ []) (h3 : ∀ p ∈ d.hourly, p.2.length = ts.length)
    (hu1 : (d.hourly_units.map Prod.fst).Nodup)
    (hext : ∀ p ∈ d.hourly, p.1 = "time" ∨ p.1 = "temperature_2m" ∨
      (p.1 ∉ reservedNames ∧ unitName p.1 ∉ reservedNames))
    (hu2 : ∀ p ∈ d.hourly_units, p.1 = "time" ∨ p.1 = "temperature_2m" ∨
      unitName p.1 ∉ reservedNames)
    (hut : alookup d.hourly_units "time" = some ut) :
    alookup (renameCols (preDF d ts)).cols "time_unit" =
      some (List.replicate ts.length ut) := by
  rw [renameCols_cols, alookup_renameCols _ "time_unit" "time_unit" (by decide)
    (fun p hp => (huniq_preDF d ts hext hu2 p hp).2.2.2.2.2.2.2.2.2.2.1),
    alookup_preDF_other d ts "time_unit" (by decide) (by decide)]
  exact alookup_flatDF_unit d ts.length hne h3 hu1 "time" ut hut

theorem rename_preDF_temperature_unit (d : Forecast) (ts : List Value)
    (uT : Value)
    (hne : d.hourly ≠ []) (h3 : ∀ p ∈ d.hourly, p.2.length = ts.length)
    (hu1 : (d.hourly_units.map Prod.fst).Nodup)
    (hext : ∀ p ∈ d.hourly, p.1 = "time" ∨ p.1 = "temperature_2m" ∨
      (p.1 ∉ reservedNames ∧ unitName p.1 ∉ reservedNames))
    (hu2 : ∀ p ∈ d.hourly_units, p.1 = "time" ∨ p.1 = "temperature_2m" ∨
      unitName p.1 ∉ reservedNames)
    (huT : alookup d.hourly_units "temperature_2m" = some uT) :
    alookup (renameCols (preDF d ts)).cols "temperature_unit" =
      some (List.replicate ts.length uT) := by
  rw [renameCols_cols, alookup_renameCols _ "temperature_unit"
    "temperature_2m_unit" (by decide)
    (fun p hp => (huniq_preDF d ts hext hu2 p hp).2.2.2.2.2.2.2.2.2.2.2),
    alookup_preDF_other d ts "temperature_2m_unit" (by decide) (by decide)]
  exact alookup_flatDF_unit d ts.length hne h3 hu1 "temperature_2m" uT huT

/-- When `hourly_units` lacks the `time` key, no `time_unit` column is
ever created. -/
theorem rename_preDF_time_unit_none (d : Forecast) (ts : List Value)
    (hext : ∀ p ∈ d.hourly, p.1 = "time" ∨ p.1 = "temperature_2m" ∨
      (p.1 ∉ reservedNames ∧ unitName p.1 ∉ reservedNames))
    (hu2 : ∀ p ∈ d.hourly_units, p.1 = "time" ∨ p.1 = "temperature_2m" ∨
      unitName p.1 ∉ reservedNames)
    (hmiss : alookup d.hourly_units "time" = none) :
    alookup (renameCols (preDF d ts)).cols "time_unit" = none := by
  rw [renameCols_cols, alookup_renameCols _ "time_unit" "time_unit" (by decide)
    (fun p hp => (huniq_preDF d ts hext hu2 p hp).2.2.2.2.2.2.2.2.2.2.1),
    alookup_preDF_other d ts "time_unit" (by decide) (by decide)]
  unfold flatDF
  have hnotunits : ∀ p ∈ d.hourly_units, unitName p.1 ≠ "time_unit" := by
    intro p hp e
    have : p.1 = "time" := unitName_inj p.1 "time" e
    exact ((alookup_eq_none_iff d.hourly_units "time").mp hmiss p hp) this
  rw [alookup_bfold_notMem unitName d.hourly_units "time_unit" hnotunits]
  rw [alookup_bfold_notMem id (topItems d) "time_unit" ?hmeta]
  case hmeta =>
    intro p hp
    have hp2 : p.1 ∈ metaNames := by
      simp only [topItems, List.mem_cons, List.not_mem_nil, or_false] at hp
      rcases hp with rfl | rfl | rfl | rfl | rfl | rfl | rfl <;> simp [metaNames]
    show p.1 ≠ "time_unit"
    exact fun e => absurd (e ▸ hp2) (by decide)
  show alookup d.hourly "time_unit" = none
  rw [alookup_eq_none_iff]
  intro p hp e
  rcases hext p hp with h | h | h
  · rw [h] at e; exact absurd e (by decide)
  · rw [h] at e; exact absurd e (by decide)
  · exact h.1 (e ▸ (by decide : ("time_unit" : String) ∈ reservedNames))

/-! ## The master characterization of `transform_data` on valid documents -/

/-- On a valid document, `transform_data` returns exactly the 12-column
table: the dates, the times of day, the raw temperatures, the seven
broadcast metadata scalars and the two broadcast unit strings, each
column having one entry per element of `hourly.time`, in input order. -/
theorem transform_data_char (d : Forecast) (ts temps : List Value) (ut uT : Value)
    (hH : HourlyOk d ts) (hU : UnitsOk d)
    (htemp : alookup d.hourly "temperature_2m" = some temps)
    (hut : alookup d.hourly_units "time" = some ut)
    (huT : alookup d.hourly_units "temperature_2m" = some uT) :
    transform_data d = .ok ⟨[
      ("time", ts.map dateOf), ("hour", ts.map todOf), ("temperature", temps),
      ("latitude", List.replicate ts.length d.latitude),
      ("longitude", List.replicate ts.length d.longitude),
      ("generationtime_ms", List.replicate ts.length d.generationtime_ms),
      ("utc_offset_seconds", List.replicate ts.length d.utc_offset_seconds),
      ("timezone", List.replicate ts.length d.timezone),
      ("timezone_abbreviation", List.replicate ts.length d.timezone_abbreviation),
      ("elevation", List.replicate ts.length d.elevation),
      ("time_unit", List.replicate ts.length ut),
      ("temperature_unit", List.replicate ts.length uT)]⟩ := by
  obtain ⟨h1, h2, h3, h4, h5⟩ := hH
  obtain ⟨hU1, hU2⟩ := hU
  have hne : d.hourly ≠ [] := by
    intro e
    rw [e] at h1
    simp [alookup] at h1
  have huniq := huniq_preDF d ts h5 hU2
  have ht1 := rename_preDF_time d ts h5 hU2
  have ht2 := rename_preDF_hour d ts h5 hU2
  have ht3 : alookup (renameCols (preDF d ts)).cols "temperature" =
      some temps := by
    rw [rename_preDF_temperature d ts h5 hU2]
    exact htemp
  have ht4 := rename_preDF_meta d ts hne h3 h5 hU2 "latitude" d.latitude rfl
    (by decide) (by decide) (by decide) (by decide) (by decide) (by decide)
    (fun p hp => (huniq p hp).2.2.2.1)
  have ht5 := rename_preDF_meta d ts hne h3 h5 hU2 "longitude" d.longitude rfl
    (by decide) (by decide) (by decide) (by decide) (by decide) (by decide)
    (fun p hp => (huniq p hp).2.2.2.2.1)
  have ht6 := rename_preDF_meta d ts hne h3 h5 hU2 "generationtime_ms"
    d.generationtime_ms rfl
    (by decide) (by decide) (by decide) (by decide) (by decide) (by decide)
    (fun p hp => (huniq p hp).2.2.2.2.2.1)
  have ht7 := rename_preDF_meta d ts hne h3 h5 hU2 "utc_offset_seconds"
    d.utc_offset_seconds rfl
    (by decide) (by decide) (by decide) (by decide) (by decide) (by decide)
    (fun p hp => (huniq p hp).2.2.2.2.2.2.1)
  have ht8 := rename_preDF_meta d ts hne h3 h5 hU2 "timezone" d.timezone rfl
    (by decide) (by decide) (by decide) (by decide) (by decide) (by decide)
    (fun p hp => (huniq p hp).2.2.2.2.2.2.2.1)
  have ht9 := rename_preDF_meta d ts hne h3 h5 hU2 "timezone_abbreviation"
    d.timezone_abbreviation rfl
    (by decide) (by decide) (by decide) (by decide) (by decide) (by decide)
    (fun p hp => (huniq p hp).2.2.2.2.2.2.2.2.1)
  have ht10 := rename_preDF_meta d ts hne h3 h5 hU2 "elevation" d.elevation rfl
    (by decide) (by decide) (by decide) (by decide) (by decide) (by decide)
    (fun p hp => (huniq p hp).2.2.2.2.2.2.2.2.2.1)
  have ht11 := rename_preDF_time_unit d ts ut hne h3 hU1 h5 hU2 hut
  have ht12 := rename_preDF_temperature_unit d ts uT hne h3 hU1 h5 hU2 huT
  rw [transform_eq_project d ts h1 h2 h3 hU2]
  simp only [ordered_columns, project,
    getCol_eq_of_alookup _ _ _ ht1, getCol_eq_of_alookup _ _ _ ht2,
    getCol_eq_of_alookup _ _ _ ht3, getCol_eq_of_alookup _ _ _ ht4,
    getCol_eq_of_alookup _ _ _ ht5, getCol_eq_of_alookup _ _ _ ht6,
    getCol_eq_of_alookup _ _ _ ht7, getCol_eq_of_alookup _ _ _ ht8,
    getCol_eq_of_alookup _ _ _ ht9, getCol_eq_of_alookup _ _ _ ht10,
    getCol_eq_of_alookup _ _ _ ht11, getCol_eq_of_alookup _ _ _ ht12]

theorem ordered_sub_reserved : ∀ x ∈ ordered_columns, x ∈ reservedNames := by
  decide

theorem alookup_mem {α : Type} (l : List (String × α)) (k : String) (v : α)
    (h : alookup l k = some v) : (k, v) ∈ l := by
  induction l with
  | nil => simp [alookup] at h
  | cons p t ih =>
    rw [alookup_cons] at h
    by_cases hp : p.1 = k
    · rw [if_pos hp] at h
      have hv := Option.some.inj h
      have hpkv : p = (k, v) := by
        obtain ⟨p1, p2⟩ := p
        simp only at hp hv
        rw [hp, hv]
      rw [← hpkv]
      exact List.mem_cons_self p t
    · rw [if_neg hp] at h
      exact List.mem_cons_of_mem p (ih h)

/-! ## The claims -/

/-- C1.  For every valid document whose hourly sequences share length `N`
(the length of `hourly.time`), `transform_data` succeeds and produces a
table with exactly `N` rows; the `time`, `hour` and `temperature` columns
are elementwise images of the input sequences, so row `i` of the output
comes from entry `i` of `hourly.time` — input order, no re-sorting. -/
theorem transform_row_count (d : Forecast) (ts temps : List Value)
    (ut uT : Value) (hH : HourlyOk d ts) (hU : UnitsOk d)
    (htemp : alookup d.hourly "temperature_2m" = some temps)
    (hut : alookup d.hourly_units "time" = some ut)
    (huT : alookup d.hourly_units "temperature_2m" = some uT) :
    ∃ t, transform_data d = .ok t ∧ t.nrows = ts.length ∧
      t.getCol "time" = .ok (ts.map dateOf) ∧
      t.getCol "hour" = .ok (ts.map todOf) ∧
      t.getCol "temperature" = .ok temps := by
  refine ⟨_, transform_data_char d ts temps ut uT hH hU htemp hut huT,
    ?_, rfl, rfl, rfl⟩
  show (ts.map dateOf).length = ts.length
  simp

/-- C2.  Broadcast invariant: every metadata column of the output is the
document's scalar repeated on every row, `time_unit` is
`hourly_units.time` repeated, and `temperature_unit` is
`hourly_units.temperature_2m` repeated. -/
theorem transform_broadcast (d : Forecast) (ts temps : List Value)
    (ut uT : Value) (hH : HourlyOk d ts) (hU : UnitsOk d)
    (htemp : alookup d.hourly "temperature_2m" = some temps)
    (hut : alookup d.hourly_units "time" = some ut)
    (huT : alookup d.hourly_units "temperature_2m" = some uT) :
    ∃ t, transform_data d = .ok t ∧
      t.getCol "latitude" = .ok (List.replicate ts.length d.latitude) ∧
      t.getCol "longitude" = .ok (List.replicate ts.length d.longitude) ∧
      t.getCol "generationtime_ms" =
        .ok (List.replicate ts.length d.generationtime_ms) ∧
      t.getCol "utc_offset_seconds" =
        .ok (List.replicate ts.length d.utc_offset_seconds) ∧
      t.getCol "timezone" = .ok (List.replicate ts.length d.timezone) ∧
      t.getCol "timezone_abbreviation" =
        .ok (List.replicate ts.length d.timezone_abbreviation) ∧
      t.getCol "elevation" = .ok (List.replicate ts.length d.elevation) ∧
      t.getCol "time_unit" = .ok (List.replicate ts.length ut) ∧
      t.getCol "temperature_unit" = .ok (List.replicate ts.length uT) :=
  ⟨_, transform_data_char d ts temps ut uT hH hU htemp hut huT,
    rfl, rfl, rfl, rfl, rfl, rfl, rfl, rfl, rfl⟩

/-- C3.  The output column list is exactly the ordered 12-name list — no
extras, no omissions; any extra hourly variable of the input produces no
output column (silently dropped), and in general the final projection
keeps exactly the 12 requested columns whatever else the flattened table
contains. -/
theorem transform_columns (d : Forecast) (ts temps : List Value)
    (ut uT : Value) (hH : HourlyOk d ts) (hU : UnitsOk d)
    (htemp : alookup d.hourly "temperature_2m" = some temps)
    (hut : alookup d.hourly_units "time" = some ut)
    (huT : alookup d.hourly_units "temperature_2m" = some uT) :
    (∃ t, transform_data d = .ok t ∧ colNames t = ordered_columns ∧
      ∀ p ∈ d.hourly, p.1 ≠ "time" → p.1 ≠ "temperature_2m" →
        p.1 ∉ colNames t) ∧
    ∀ (df t2 : DataFrame), project df ordered_columns = .ok t2 →
      colNames t2 = ordered_columns := by
  constructor
  · refine ⟨_, transform_data_char d ts temps ut uT hH hU htemp hut huT,
      rfl, ?_⟩
    intro p hp hn1 hn2 hmem
    rcases hH.2.2.2.2 p hp with h | h | h
    · exact hn1 h
    · exact hn2 h
    · have hmem2 : p.1 ∈ ordered_columns := hmem
      exact h.1 (ordered_sub_reserved p.1 hmem2)
  · exact fun df t2 => project_names df ordered_columns t2

/-- C4.  Round-trip law: for every row, re-parsing the concatenation
`str(time) + " " + str(hour)` (exactly what line 94 of the source does)
reconstructs the timestamp parsed from the corresponding input
`hourly.time` entry. -/
theorem transform_time_roundtrip (d : Forecast) (ts temps : List Value)
    (ut uT : Value) (hH : HourlyOk d ts) (hU : UnitsOk d)
    (htemp : alookup d.hourly "temperature_2m" = some temps)
    (hut : alookup d.hourly_units "time" = some ut)
    (huT : alookup d.hourly_units "temperature_2m" = some uT) :
    ∃ t, transform_data d = .ok t ∧
      t.getCol "time" = .ok (ts.map dateOf) ∧
      t.getCol "hour" = .ok (ts.map todOf) ∧
      ∀ i : Fin ts.length,
        parseDT (valueToStr (dateOf (ts.get i)) ++ " " ++
          valueToStr (todOf (ts.get i))) = parseCell (ts.get i) := by
  refine ⟨_, transform_data_char d ts temps ut uT hH hU htemp hut huT,
    rfl, rfl, ?_⟩
  intro i
  have hmem : ts.get i ∈ ts := ts.get_mem i.1 i.2
  generalize hvv : ts.get i = v
  rw [hvv] at hmem
  have hv := hH.2.1 v hmem
  cases hq : parseCell v with
  | none => rw [hq] at hv; simp at hv
  | some p =>
    have hd : dateOf v = .date p.1 := by unfold dateOf; rw [hq]
    have ht : todOf v = .tod p.2 := by unfold todOf; rw [hq]
    rw [hd, ht]
    cases v with
    | str s =>
      have hq2 : parseDT s = some (p.1, p.2) := hq
      exact parseDT_roundtrip s p.1 p.2 hq2
    | num q => simp [parseCell] at hq
    | date dd => simp [parseCell] at hq
    | tod tt => simp [parseCell] at hq
    | dt dd tt => simp [parseCell] at hq

/-- C5.  Renaming law: the output `temperature` column equals the input
`hourly.temperature_2m` sequence elementwise and unmodified, and the
`temperature_unit` column carries `hourly_units.temperature_2m`. -/
theorem transform_rename_law (d : Forecast) (ts temps : List Value)
    (ut uT : Value) (hH : HourlyOk d ts) (hU : UnitsOk d)
    (htemp : alookup d.hourly "temperature_2m" = some temps)
    (hut : alookup d.hourly_units "time" = some ut)
    (huT : alookup d.hourly_units "temperature_2m" = some uT) :
    ∃ t, transform_data d = .ok t ∧ t.getCol "temperature" = .ok temps ∧
      t.getCol "temperature_unit" = .ok (List.replicate ts.length uT) :=
  ⟨_, transform_data_char d ts temps ut uT hH hU htemp hut huT, rfl, rfl⟩

/-- C6.  If `hourly` lacks the `temperature_2m` key, the renamed table has
no `temperature` column and the final projection fails with a KeyError —
no partial table is returned. -/
theorem transform_missing_temperature (d : Forecast) (ts : List Value)
    (hH : HourlyOk d ts) (hU : UnitsOk d)
    (hmiss : alookup d.hourly "temperature_2m" = none) :
    transform_data d = .error (.keyError "temperature") := by
  obtain ⟨h1, h2, h3, h4, h5⟩ := hH
  obtain ⟨hU1, hU2⟩ := hU
  have ht1 := rename_preDF_time d ts h5 hU2
  have ht2 := rename_preDF_hour d ts h5 hU2
  have ht3 : alookup (renameCols (preDF d ts)).cols "temperature" = none := by
    rw [rename_preDF_temperature d ts h5 hU2]
    exact hmiss
  rw [transform_eq_project d ts h1 h2 h3 hU2]
  simp only [ordered_columns, project, getCol_eq_of_alookup _ _ _ ht1,
    getCol_eq_of_alookup _ _ _ ht2, getCol_err_of_alookup _ _ ht3]

/-- C10.  If `hourly_units` lacks the `time` key, the `time_unit` column
is never created and the final projection fails with a KeyError at
`time_unit`, even though the hourly data itself is complete. -/
theorem transform_missing_time_unit (d : Forecast) (ts temps : List Value)
    (hH : HourlyOk d ts) (hU : UnitsOk d)
    (htemp : alookup d.hourly "temperature_2m" = some temps)
    (hmiss : alookup d.hourly_units "time" = none) :
    transform_data d = .error (.keyError "time_unit") := by
  obtain ⟨h1, h2, h3, h4, h5⟩ := hH
  obtain ⟨hU1, hU2⟩ := hU
  have hne : d.hourly ≠ [] := by
    intro e
    rw [e] at h1
    simp [alookup] at h1
  have huniq := huniq_preDF d ts h5 hU2
  have ht1 := rename_preDF_time d ts h5 hU2
  have ht2 := rename_preDF_hour d ts h5 hU2
  have ht3 : alookup (renameCols (preDF d ts)).cols "temperature" =
      some temps := by
    rw [rename_preDF_temperature d ts h5 hU2]
    exact htemp
  have ht4 := rename_preDF_meta d ts hne h3 h5 hU2 "latitude" d.latitude rfl
    (by decide) (by decide) (by decide) (by decide) (by decide) (by decide)
    (fun p hp => (huniq p hp).2.2.2.1)
  have ht5 := rename_preDF_meta d ts hne h3 h5 hU2 "longitude" d.longitude rfl
    (by decide) (by decide) (by decide) (by decide) (by decide) (by decide)
    (fun p hp => (huniq p hp).2.2.2.2.1)
  have ht6 := rename_preDF_meta d ts hne h3 h5 hU2 "generationtime_ms"
    d.generationtime_ms rfl
    (by decide) (by decide) (by decide) (by decide) (by decide) (by decide)
    (fun p hp => (huniq p hp).2.2.2.2.2.1)
  have ht7 := rename_preDF_meta d ts hne h3 h5 hU2 "utc_offset_seconds"
    d.utc_offset_seconds rfl
    (by decide) (by decide) (by decide) (by decide) (by decide) (by decide)
    (fun p hp => (huniq p hp).2.2.2.2.2.2.1)
  have ht8 := rename_preDF_meta d ts hne h3 h5 hU2 "timezone" d.timezone rfl
    (by decide) (by decide) (by decide) (by decide) (by decide) (by decide)
    (fun p hp => (huniq p hp).2.2.2.2.2.2.2.1)
  have ht9 := rename_preDF_meta d ts hne h3 h5 hU2 "timezone_abbreviation"
    d.timezone_abbreviation rfl
    (by decide) (by decide) (by decide) (by decide) (by decide) (by decide)
    (fun p hp => (huniq p hp).2.2.2.2.2.2.2.2.1)
  have ht10 := rename_preDF_meta d ts hne h3 h5 hU2 "elevation" d.elevation rfl
    (by decide) (by decide) (by decide) (by decide) (by decide) (by decide)
    (fun p hp => (huniq p hp).2.2.2.2.2.2.2.2.2.1)
  have ht11 := rename_preDF_time_unit_none d ts h5 hU2 hmiss
  rw [transform_eq_project d ts h1 h2 h3 hU2]
  simp only [ordered_columns, project, getCol_eq_of_alookup _ _ _ ht1,
    getCol_eq_of_alookup _ _ _ ht2, getCol_eq_of_alookup _ _ _ ht3,
    getCol_eq_of_alookup _ _ _ ht4, getCol_eq_of_alookup _ _ _ ht5,
    getCol_eq_of_alookup _ _ _ ht6, getCol_eq_of_alookup _ _ _ ht7,
    getCol_eq_of_alookup _ _ _ ht8, getCol_eq_of_alookup _ _ _ ht9,
    getCol_eq_of_alookup _ _ _ ht10, getCol_err_of_alookup _ _ ht11]

/-- C7 (amended).  On a valid document with empty hourly sequences,
`transform_data` returns a zero-row table, and `plot_temperature` on that
table fails with an `IndexError` when it reads `temperature_unit` at
row 0 (line 100 of the source). -/
theorem transform_empty_plot_indexError (d : Forecast) (temps : List Value)
    (ut uT : Value) (hH : HourlyOk d []) (hU : UnitsOk d)
    (htemp : alookup d.hourly "temperature_2m" = some temps)
    (hut : alookup d.hourly_units "time" = some ut)
    (huT : alookup d.hourly_units "temperature_2m" = some uT) :
    ∃ t, transform_data d = .ok t ∧ t.nrows = 0 ∧
      plot_temperature t 24 = .error .indexError := by
  have htemps : temps = [] := by
    have hmem := alookup_mem d.hourly "temperature_2m" temps htemp
    have hlen := hH.2.2.1 ("temperature_2m", temps) hmem
    simpa using hlen
  subst htemps
  exact ⟨_, transform_data_char d [] [] ut uT hH hU htemp hut huT, rfl, rfl⟩

/-- Ambient state outside the forecast document: wall clock, entropy pool,
process environment.  `transform_data` performs no input/output and reads
no module-level mutable state (its only free inputs are the document's
fields), so its translation is independent of the world. -/
structure World where
  clock : Nat
  entropy : Nat
  environ : List (String × String)
  deriving DecidableEq, Repr

/-- `transform_data` as executed in an ambient world: the source consults
only its argument, never the world. -/
def transform_data_run (w : World) (d : Forecast) : Except Err DataFrame :=
  transform_data d

/-- C8.  Determinism/purity: two runs on equal documents, in arbitrary
(and arbitrarily different) ambient worlds, produce equal tables. -/
theorem transform_deterministic (w₁ w₂ : World) (d₁ d₂ : Forecast)
    (h : d₁ = d₂) : transform_data_run w₁ d₁ = transform_data_run w₂ d₂ := by
  rw [h]
  rfl

/-- `flatten_hourly_data` in state-passing form: the document is part of
the state; every step of lines 39-50 only reads it, so the returned
document is the one passed in. -/
def flatten_hourly_data_st (d : Forecast) : Except Err (DataFrame × Forecast) :=
  match mkDataFrame d.hourly with
  | .error e => .error e
  | .ok hourly_df =>
    .ok (bfold unitName d.hourly_units (bfold id (topItems d) hourly_df), d)

/-- `transform_data` in state-passing form (lines 63-82): all reads of the
document happen inside `flatten_hourly_data_st`; the remaining statements
operate on the fresh table only. -/
def transform_data_st (d : Forecast) : Except Err (DataFrame × Forecast) :=
  match flatten_hourly_data_st d with
  | .error e => .error e
  | .ok (df0, d1) =>
    match df0.getCol "time" with
    | .error e => .error e
    | .ok tc0 =>
      match mapExcept toDatetimeCell tc0 with
      | .error e => .error e
      | .ok parsed =>
        let df1 := df0.setCol "time" parsed
        match df1.getCol "time" with
        | .error e => .error e
        | .ok tc1 =>
          match mapExcept dtTimeCell tc1 with
          | .error e => .error e
          | .ok hrs =>
            let df2 := df1.setCol "hour" hrs
            match df2.getCol "time" with
            | .error e => .error e
            | .ok tc2 =>
              match mapExcept dtDateCell tc2 with
              | .error e => .error e
              | .ok dts =>
                let df3 := df2.setCol "time" dts
                match project (renameCols df3) ordered_columns with
                | .error e => .error e
                | .ok t => .ok (t, d1)

/-- C9.  Frame property: when the state-passing pipeline succeeds, the
document in the final state is the input document unchanged, and the
table produced is exactly `transform_data`'s; all reshaping happens on a
freshly built table. -/
theorem transform_preserves_input (d : Forecast) (t : DataFrame)
    (d2 : Forecast) (h : transform_data_st d = .ok (t, d2)) :
    d2 = d ∧ transform_data d = .ok t := by
  unfold transform_data_st flatten_hourly_data_st at h
  unfold transform_data flatten_hourly_data
  cases hmk : mkDataFrame d.hourly with
  | error e => rw [hmk] at h; exact absurd h (by simp)
  | ok df0 =>
    rw [hmk] at h
    simp only at h
    cases hg0 : (bfold unitName d.hourly_units
        (bfold id (topItems d) df0)).getCol "time" with
    | error e => rw [hg0] at h; exact absurd h (by simp)
    | ok tc0 =>
      rw [hg0] at h
      simp only at h
      cases hm1 : mapExcept toDatetimeCell tc0 with
      | error e => rw [hm1] at h; exact absurd h (by simp)
      | ok parsed =>
        rw [hm1] at h
        simp only at h
        cases hg1 : ((bfold unitName d.hourly_units
            (bfold id (topItems d) df0)).setCol "time" parsed).getCol "time" with
        | error e => rw [hg1] at h; exact absurd h (by simp)
        | ok tc1 =>
          rw [hg1] at h
          simp only at h
          cases hm2 : mapExcept dtTimeCell tc1 with
          | error e => rw [hm2] at h; exact absurd h (by simp)
          | ok hrs =>
            rw [hm2] at h
            simp only at h
            cases hg2 : (((bfold unitName d.hourly_units
                (bfold id (topItems d) df0)).setCol "time" parsed).setCol
                "hour" hrs).getCol "time" with
            | error e => rw [hg2] at h; exact absurd h (by simp)
            | ok tc2 =>
              rw [hg2] at h
              simp only at h
              cases hm3 : mapExcept dtDateCell tc2 with
              | error e => rw [hm3] at h; exact absurd h (by simp)
              | ok dts =>
                rw [hm3] at h
                simp only at h
                cases hpr : project (renameCols ((((bfold unitName
                    d.hourly_units (bfold id (topItems d) df0)).setCol "time"
                    parsed).setCol "hour" hrs).setCol "time" dts))
                    ordered_columns with
                | error e => rw [hpr] at h; exact absurd h (by simp)
                | ok t2 =>
                  rw [hpr] at h
                  simp only at h
                  have h2 := Except.ok.inj h
                  injection h2 with ha hb
                  refine ⟨hb.symm, ?_⟩
                  rw [← ha]
                  simp only [hg0, hm1, hg1, hm2, hg2, hm3, hpr]

/-! ## Concrete example documents (the scenario of spec §8) -/

def exTs : List Value := [.str "2024-01-01T00:00", .str "2024-01-01T01:00"]

def exTemps : List Value := [.num 10, .num 11]

def exDoc : Forecast :=
  { latitude := .num 4, longitude := .num (-10), generationtime_ms := .num 1,
    utc_offset_seconds := .num 0, timezone := .str "UTC",
    timezone_abbreviation := .str "UTC", elevation := .num 0,
    hourly := [("time", exTs), ("temperature_2m", exTemps)],
    hourly_units := [("time", .str "iso8601"), ("temperature_2m", .str "°C")] }

/-- The table `transform_data` produces on `exDoc`. -/
def exTable : DataFrame :=
  ⟨[("time", [.date ⟨2024, 1, 1⟩, .date ⟨2024, 1, 1⟩]),
    ("hour", [.tod ⟨0, 0, 0⟩, .tod ⟨1, 0, 0⟩]),
    ("temperature", exTemps),
    ("latitude", [.num 4, .num 4]),
    ("longitude", [.num (-10), .num (-10)]),
    ("generationtime_ms", [.num 1, .num 1]),
    ("utc_offset_seconds", [.num 0, .num 0]),
    ("timezone", [.str "UTC", .str "UTC"]),
    ("timezone_abbreviation", [.str "UTC", .str "UTC"]),
    ("elevation", [.num 0, .num 0]),
    ("time_unit", [.str "iso8601", .str "iso8601"]),
    ("temperature_unit", [.str "°C", .str "°C"])]⟩

/-- `exDoc` with empty hourly sequences (`N = 0`). -/
def exDoc0 : Forecast :=
  { exDoc with hourly := [("time", []), ("temperature_2m", [])] }

/-- The zero-row table `transform_data` produces on `exDoc0`. -/
def exTable0 : DataFrame :=
  ⟨[("time", []), ("hour", []), ("temperature", []), ("latitude", []),
    ("longitude", []), ("generationtime_ms", []), ("utc_offset_seconds", []),
    ("timezone", []), ("timezone_abbreviation", []), ("elevation", []),
    ("time_unit", []), ("temperature_unit", [])]⟩

/-- `exDoc` whose `hourly` mapping lacks `temperature_2m`. -/
def exDocNoTemp : Forecast :=
  { exDoc with hourly := [("time", exTs)],
               hourly_units := [("time", .str "iso8601")] }

/-- `exDoc` whose `hourly_units` mapping lacks `time`. -/
def exDocNoTimeUnit : Forecast :=
  { exDoc with hourly_units := [("temperature_2m", .str "°C")] }

/-! ## Witnesses and the C7 counterexample -/

theorem transform_row_count_witness :
    ∃ t, transform_data exDoc = .ok t ∧ t.nrows = exTs.length ∧
      t.getCol "time" = .ok (exTs.map dateOf) ∧
      t.getCol "hour" = .ok (exTs.map todOf) ∧
      t.getCol "temperature" = .ok exTemps :=
  transform_row_count exDoc exTs exTemps (.str "iso8601") (.str "°C")
    (by decide) (by decide) (by decide) (by decide) (by decide)

theorem transform_broadcast_witness :
    ∃ t, transform_data exDoc = .ok t ∧
      t.getCol "latitude" = .ok (List.replicate exTs.length exDoc.latitude) ∧
      t.getCol "longitude" = .ok (List.replicate exTs.length exDoc.longitude) ∧
      t.getCol "generationtime_ms" =
        .ok (List.replicate exTs.length exDoc.generationtime_ms) ∧
      t.getCol "utc_offset_seconds" =
        .ok (List.replicate exTs.length exDoc.utc_offset_seconds) ∧
      t.getCol "timezone" = .ok (List.replicate exTs.length exDoc.timezone) ∧
      t.getCol "timezone_abbreviation" =
        .ok (List.replicate exTs.length exDoc.timezone_abbreviation) ∧
      t.getCol "elevation" = .ok (List.replicate exTs.length exDoc.elevation) ∧
      t.getCol "time_unit" =
        .ok (List.replicate exTs.length (Value.str "iso8601")) ∧
      t.getCol "temperature_unit" =
        .ok (List.replicate exTs.length (Value.str "°C")) :=
  transform_broadcast exDoc exTs exTemps (.str "iso8601") (.str "°C")
    (by decide) (by decide) (by decide) (by decide) (by decide)

theorem transform_columns_witness :
    (∃ t, transform_data exDoc = .ok t ∧ colNames t = ordered_columns ∧
      ∀ p ∈ exDoc.hourly, p.1 ≠ "time" → p.1 ≠ "temperature_2m" →
        p.1 ∉ colNames t) ∧
    ∀ (df t2 : DataFrame), project df ordered_columns = .ok t2 →
      colNames t2 = ordered_columns :=
  transform_columns exDoc exTs exTemps (.str "iso8601") (.str "°C")
    (by decide) (by decide) (by decide) (by decide) (by decide)

theorem transform_time_roundtrip_witness :
    ∃ t, transform_data exDoc = .ok t ∧
      t.getCol "time" = .ok (exTs.map dateOf) ∧
      t.getCol "hour" = .ok (exTs.map todOf) ∧
      ∀ i : Fin exTs.length,
        parseDT (valueToStr (dateOf (exTs.get i)) ++ " " ++
          valueToStr (todOf (exTs.get i))) = parseCell (exTs.get i) :=
  transform_time_roundtrip exDoc exTs exTemps (.str "iso8601") (.str "°C")
    (by decide) (by decide) (by decide) (by decide) (by decide)

theorem transform_rename_law_witness :
    ∃ t, transform_data exDoc = .ok t ∧
      t.getCol "temperature" = .ok exTemps ∧
      t.getCol "temperature_unit" =
        .ok (List.replicate exTs.length (Value.str "°C")) :=
  transform_rename_law exDoc exTs exTemps (.str "iso8601") (.str "°C")
    (by decide) (by decide) (by decide) (by decide) (by decide)

theorem transform_missing_temperature_witness :
    transform_data exDocNoTemp = .error (.keyError "temperature") :=
  transform_missing_temperature exDocNoTemp exTs (by decide) (by decide)
    (by decide)

/-- C7, the claim as stated is false: on the zero-row table the plot call
fails with an `IndexError` (reading `temperature_unit` at row 0), not with
an `EmptyDataError`. -/
theorem plot_empty_counterexample :
    transform_data exDoc0 = .ok exTable0 ∧ exTable0.nrows = 0 ∧
    plot_temperature exTable0 24 = .error .indexError ∧
    plot_temperature exTable0 24 ≠ .error .emptyDataError := by
  refine ⟨rfl, rfl, rfl, ?_⟩
  intro h
  have h3 : (Except.error Err.indexError : Except Err PlotData) =
      .error .emptyDataError := h
  injection h3 with h4
  exact absurd h4 (by decide)

theorem transform_empty_plot_indexError_witness :
    ∃ t, transform_data exDoc0 = .ok t ∧ t.nrows = 0 ∧
      plot_temperature t 24 = .error .indexError :=
  transform_empty_plot_indexError exDoc0 [] (.str "iso8601") (.str "°C")
    (by decide) (by decide) (by decide) (by decide) (by decide)

theorem transform_deterministic_witness :
    transform_data_run ⟨0, 0, []⟩ exDoc =
      transform_data_run ⟨17, 42, [("LANG", "C")]⟩ exDoc :=
  transform_deterministic ⟨0, 0, []⟩ ⟨17, 42, [("LANG", "C")]⟩ exDoc exDoc rfl

theorem transform_preserves_input_witness :
    exDoc = exDoc ∧ transform_data exDoc = .ok exTable :=
  transform_preserves_input exDoc exTable exDoc rfl

theorem transform_missing_time_unit_witness :
    transform_data exDocNoTimeUnit = .error (.keyError "time_unit") :=
  transform_missing_time_unit exDocNoTimeUnit exTs exTemps (by decide)
    (by decide) (by decide) (by decide)

end Weather
